import Mathlib

/-!
Verification of the Lyftr webhook ingestion and query API.

This file gives a shallow embedding of the Python sources
(`app/storage.py`, `app/models.py`, `app/main.py`) and proves, or refutes,
the behavioural claims of the specification against it.

Modelling conventions:
- Python `str` and SQLite `TEXT` are Lean `String`; character-level work
  uses `List Char` via `String.data`.  SQLite's default BINARY collation
  compares UTF-8 bytes; on well-formed UTF-8 that order coincides with
  lexicographic comparison of Unicode scalar values, which is the
  executable comparison `strLt`/`strLe` defined below.
- Python `bytes` are `List Nat` (each entry a byte value).
- The SQLite table `messages` is a `List Row` in insertion order; the
  `message_id` PRIMARY KEY constraint is reflected in `insert_message`.
- `datetime.utcnow()` is passed in explicitly as a `now : String` argument.
- Fallible Python code is `Option`/`Except`.
-/

namespace Lyftr

/-! ## String comparison (SQLite BINARY collation) -/

/-- Strict comparison of characters by Unicode scalar value. -/
def charLt (a b : Char) : Bool := decide (a < b)

/-- Lexicographic strict comparison of character lists; the order SQLite's
BINARY collation induces on well-formed UTF-8 `TEXT` values. -/
def strLtL : List Char → List Char → Bool
  | [], [] => false
  | [], _ :: _ => true
  | _ :: _, [] => false
  | a :: s, b :: t => charLt a b || (a == b && strLtL s t)

/-- SQLite `<` on `TEXT` values. -/
def strLt (a b : String) : Bool := strLtL a.data b.data

/-- SQLite `<=` on `TEXT` values (as used by the `ts >= ?` filter and by
`MIN`/`MAX`/`ORDER BY`). -/
def strLe (a b : String) : Bool := a == b || strLt a b

theorem strLtL_trans : ∀ {a b c : List Char},
    strLtL a b = true → strLtL b c = true → strLtL a c = true := by
  intro a
  induction a with
  | nil =>
    intro b c hab hbc
    cases b with
    | nil => simp [strLtL] at hab
    | cons bh bt =>
      cases c with
      | nil => simp [strLtL] at hbc
      | cons ch ct => simp [strLtL]
  | cons ah s ih =>
    intro b c hab hbc
    cases b with
    | nil => simp [strLtL] at hab
    | cons bh bt =>
      cases c with
      | nil => simp [strLtL] at hbc
      | cons ch ct =>
        simp only [strLtL, charLt, Bool.or_eq_true, Bool.and_eq_true,
          decide_eq_true_eq, beq_iff_eq] at hab hbc ⊢
        rcases hab with h1 | ⟨e1, l1⟩
        · rcases hbc with h2 | ⟨e2, _⟩
          · exact Or.inl (h1.trans h2)
          · exact Or.inl (e2 ▸ h1)
        · rcases hbc with h2 | ⟨e2, l2⟩
          · exact Or.inl (e1 ▸ h2)
          · exact Or.inr ⟨e1.trans e2, ih l1 l2⟩

theorem strLtL_trich : ∀ a b : List Char,
    strLtL a b = true ∨ a = b ∨ strLtL b a = true := by
  intro a
  induction a with
  | nil =>
    intro b
    cases b with
    | nil => exact Or.inr (Or.inl rfl)
    | cons bh bt => exact Or.inl (by simp [strLtL])
  | cons ah s ih =>
    intro b
    cases b with
    | nil => exact Or.inr (Or.inr (by simp [strLtL]))
    | cons bh bt =>
      rcases lt_trichotomy ah bh with h | h | h
      · exact Or.inl (by simp [strLtL, charLt, h])
      · subst h
        rcases ih bt with h2 | h2 | h2
        · exact Or.inl (by simp [strLtL, h2])
        · exact Or.inr (Or.inl (by rw [h2]))
        · exact Or.inr (Or.inr (by simp [strLtL, h2]))
      · exact Or.inr (Or.inr (by simp [strLtL, charLt, h]))

theorem strData_inj : ∀ {a b : String}, a.data = b.data → a = b := by
  intro a b h
  cases a; cases b; exact congrArg String.mk h

theorem strLe_refl (a : String) : strLe a a = true := by
  simp [strLe]

theorem strLe_of_strLt {a b : String} (h : strLt a b = true) :
    strLe a b = true := by
  simp [strLe, h]

theorem strLe_trans : ∀ {a b c : String},
    strLe a b = true → strLe b c = true → strLe a c = true := by
  intro a b c hab hbc
  simp only [strLe, strLt, Bool.or_eq_true, beq_iff_eq] at hab hbc ⊢
  rcases hab with h1 | h1
  · rcases hbc with h2 | h2
    · exact Or.inl (h1.trans h2)
    · exact Or.inr (h1 ▸ h2)
  · rcases hbc with h2 | h2
    · exact Or.inr (h2 ▸ h1)
    · exact Or.inr (strLtL_trans h1 h2)

theorem strLe_total : ∀ a b : String, strLe a b = true ∨ strLe b a = true := by
  intro a b
  rcases strLtL_trich a.data b.data with h | h | h
  · exact Or.inl (by simp [strLe, strLt, h])
  · exact Or.inl (by simp [strLe, strLt, strData_inj h])
  · exact Or.inr (by simp [strLe, strLt, h])

/-! ## The message store (`app/storage.py`) -/

/-- A row of the SQLite table `messages` as created by `init_db` in
`app/storage.py`: `message_id TEXT PRIMARY KEY, from_msisdn TEXT NOT NULL,
to_msisdn TEXT NOT NULL, ts TEXT NOT NULL, text TEXT, created_at TEXT NOT
NULL`.  The nullable `text` column is an `Option String`. -/
structure Row where
  message_id : String
  from_msisdn : String
  to_msisdn : String
  ts : String
  text : Option String
  created_at : String
deriving DecidableEq, Repr

/-- Python truthiness of an `Optional[str]`: `None` and `""` are falsy.
Used by `get_messages` in `app/storage.py`, which only adds a WHERE clause
under `if from_filter:` / `if since:` / `if q:`. -/
def pyTruthy : Option String → Bool
  | none => false
  | some s => !s.isEmpty

/-- ASCII-only lower-casing of a character.  SQLite's built-in `LIKE`
operator is case-insensitive for the 26 upper-case ASCII letters only. -/
def sqliteFold (c : Char) : Char :=
  if 'A' ≤ c ∧ c ≤ 'Z' then Char.ofNat (c.toNat + 32) else c

/-- Fuel-indexed SQLite `LIKE` pattern matching over characters:
`%` matches any sequence of characters, `_` matches any single character,
and ordinary characters match up to ASCII case folding.  The fuel only
serves to make the recursion structural; `sqlLike` supplies enough fuel
that it is never exhausted. -/
def likeMatchF : Nat → List Char → List Char → Bool
  | 0, _, _ => false
  | _ + 1, [], s => s.isEmpty
  | f + 1, '%' :: p, s =>
      likeMatchF f p s ||
        (match s with
         | [] => false
         | _ :: s' => likeMatchF f ('%' :: p) s')
  | f + 1, '_' :: p, s =>
      (match s with
       | [] => false
       | _ :: s' => likeMatchF f p s')
  | f + 1, c :: p, s =>
      (match s with
       | [] => false
       | d :: s' => (sqliteFold c == sqliteFold d) && likeMatchF f p s')

/-- SQLite `string LIKE pattern` (default behaviour, no ESCAPE clause). -/
def sqlLike (pat s : String) : Bool :=
  likeMatchF (pat.data.length + s.data.length + 1) pat.data s.data

/-- The WHERE clause contributed by `from_filter` in `get_messages`
(`app/storage.py`): absent (or Python-falsy, i.e. empty) means no
constraint, otherwise SQL equality `from_msisdn = ?`. -/
def condFrom (from_filter : Option String) (r : Row) : Bool :=
  if pyTruthy from_filter then r.from_msisdn == from_filter.getD "" else true

/-- The WHERE clause contributed by `since`: SQL `ts >= ?`, a BINARY
(byte-wise) string comparison. -/
def condSince (since : Option String) (r : Row) : Bool :=
  if pyTruthy since then strLe (since.getD "") r.ts else true

/-- The WHERE clause contributed by `q`: SQL `text LIKE '%q%'`.  A NULL
`text` never matches (`NULL LIKE x` is NULL, hence not selected). -/
def condQ (q : Option String) (r : Row) : Bool :=
  if pyTruthy q then
    match r.text with
    | none => false
    | some t => sqlLike ("%" ++ q.getD "" ++ "%") t
  else true

/-- Conjunction of the WHERE clauses built in `get_messages`
(`" AND ".join(where_clauses)`, or `1=1` when no filter is truthy). -/
def whereMatch (from_filter since q : Option String) (r : Row) : Bool :=
  condFrom from_filter r && condSince since r && condQ q r

/-- The `ORDER BY ts ASC, message_id ASC` order of `get_messages`:
lexicographic on the pair `(ts, message_id)` under BINARY collation. -/
def rowOrd (a b : Row) : Prop :=
  strLt a.ts b.ts = true ∨ (a.ts = b.ts ∧ strLe a.message_id b.message_id = true)

instance : DecidableRel rowOrd := fun a b => by
  unfold rowOrd; infer_instance

instance : IsTotal Row rowOrd where
  total a b := by
    rcases strLtL_trich a.ts.data b.ts.data with h | h | h
    · exact Or.inl (Or.inl h)
    · have e : a.ts = b.ts := strData_inj h
      rcases strLe_total a.message_id b.message_id with h2 | h2
      · exact Or.inl (Or.inr ⟨e, h2⟩)
      · exact Or.inr (Or.inr ⟨e.symm, h2⟩)
    · exact Or.inr (Or.inl h)

instance : IsTrans Row rowOrd where
  trans a b c hab hbc := by
    rcases hab with h1 | ⟨e1, l1⟩
    · rcases hbc with h2 | ⟨e2, _⟩
      · exact Or.inl (strLtL_trans h1 h2)
      · exact Or.inl (e2 ▸ h1)
    · rcases hbc with h2 | ⟨e2, l2⟩
      · exact Or.inl (by rw [strLt, e1]; exact h2)
      · exact Or.inr ⟨e1.trans e2, strLe_trans l1 l2⟩

/-- The sorted result set of the SELECT in `get_messages`.  SQLite returns
some permutation of the matching rows that is sorted for
`ORDER BY ts ASC, message_id ASC`; we fix insertion sort as the witness. -/
def sortRows (l : List Row) : List Row :=
  l.insertionSort rowOrd

/-- SQL `LIMIT n`: SQLite treats a negative limit as "no limit". -/
def sqlLimit (limit : Int) (l : List Row) : List Row :=
  if limit < 0 then l else l.take limit.toNat

/-- SQL `OFFSET n`: SQLite treats a negative offset as 0 (and `Int.toNat`
of a negative number is 0). -/
def sqlOffset (offset : Int) (l : List Row) : List Row :=
  l.drop offset.toNat

/-- The function `get_messages` of `app/storage.py`: builds the WHERE
clause from the truthy filters, obtains `total` from
`SELECT COUNT(*) ... WHERE ...`, and the page from
`SELECT ... WHERE ... ORDER BY ts ASC, message_id ASC LIMIT ? OFFSET ?`.
Returns `(messages, total)`. -/
def get_messages (db : List Row) (limit : Int) (offset : Int)
    (from_filter since q : Option String) : List Row × Nat :=
  let matching := db.filter (whereMatch from_filter since q)
  let total := matching.length
  let rows := sqlLimit limit (sqlOffset offset (sortRows matching))
  (rows, total)

/-- The function `insert_message` of `app/storage.py`.  The INSERT raises
`sqlite3.IntegrityError` exactly when the PRIMARY KEY `message_id` is
already present, in which case the handler returns `(True, True)` and the
table is unchanged; otherwise the row is appended with
`created_at = datetime.utcnow().isoformat() + 'Z'` (passed here as `now`)
and the function returns `(True, False)`.  Result:
`(new table, (success, is_duplicate))`. -/
def insert_message (db : List Row) (now : String)
    (message_id from_msisdn to_msisdn ts : String) (text : Option String) :
    List Row × (Bool × Bool) :=
  if db.any (fun r => r.message_id == message_id) then
    (db, (true, true))
  else
    (db ++ [⟨message_id, from_msisdn, to_msisdn, ts, text, now⟩], (true, false))

/-- Descending-count order used by the `ORDER BY count DESC` of the
top-senders query in `get_stats`. -/
def countDesc (a b : String × Nat) : Prop := b.2 ≤ a.2

instance : DecidableRel countDesc := fun a b => by
  unfold countDesc; infer_instance

instance : IsTotal (String × Nat) countDesc where
  total a b := (le_total b.2 a.2).imp id id

instance : IsTrans (String × Nat) countDesc where
  trans _ _ _ hab hbc := le_trans hbc hab

/-- The distinct `from_msisdn` values of the table, as counted by
`SELECT COUNT(DISTINCT from_msisdn)`. -/
def distinctFroms (db : List Row) : List String :=
  (db.map (fun r => r.from_msisdn)).dedup

/-- The groups of the `GROUP BY from_msisdn` query: one `(from, COUNT(*))`
pair per distinct sender. -/
def senderCounts (db : List Row) : List (String × Nat) :=
  (distinctFroms db).map
    (fun f => (f, db.countP (fun r => r.from_msisdn == f)))

/-- The `messages_per_sender` result: `GROUP BY from_msisdn
ORDER BY count DESC LIMIT 10`. -/
def topSenders (db : List Row) : List (String × Nat) :=
  ((senderCounts db).insertionSort countDesc).take 10

/-- Binary minimum for SQL `MIN` under BINARY collation. -/
def minS (a b : String) : String := if strLe a b then a else b

/-- Binary maximum for SQL `MAX` under BINARY collation. -/
def maxS (a b : String) : String := if strLe a b then b else a

/-- SQL `MIN(ts)` over the table: NULL (`none`) on an empty table. -/
def sqlMinTs (db : List Row) : Option String :=
  match db.map (fun r => r.ts) with
  | [] => none
  | x :: xs => some (xs.foldl minS x)

/-- SQL `MAX(ts)` over the table: NULL (`none`) on an empty table. -/
def sqlMaxTs (db : List Row) : Option String :=
  match db.map (fun r => r.ts) with
  | [] => none
  | x :: xs => some (xs.foldl maxS x)

/-- The response dictionary of `get_stats` in `app/storage.py`. -/
structure Stats where
  total_messages : Nat
  senders_count : Nat
  messages_per_sender : List (String × Nat)
  first_message_ts : Option String
  last_message_ts : Option String
deriving DecidableEq, Repr

/-- The function `get_stats` of `app/storage.py`. -/
def get_stats (db : List Row) : Stats where
  total_messages := db.length
  senders_count := (distinctFroms db).length
  messages_per_sender := topSenders db
  first_message_ts := sqlMinTs db
  last_message_ts := sqlMaxTs db

/-- The handler `list_messages` of `app/main.py` (`GET /messages`).
FastAPI first validates the query parameters: `limit` defaults to 50 and
must satisfy `ge=1, le=100`; `offset` defaults to 0 and must satisfy
`ge=0`.  A violation is rejected by the framework with a 422 response
(`Except.error ()`) before the handler body — and hence the store — is
reached.  Otherwise the handler returns
`{"data": messages, "total": total, "limit": limit, "offset": offset}`. -/
def list_messages (db : List Row) (limitQ offsetQ : Option Int)
    (from_filter since q : Option String) :
    Except Unit (List Row × Nat × Int × Int) :=
  let limit := limitQ.getD 50
  let offset := offsetQ.getD 0
  if limit < 1 ∨ 100 < limit ∨ offset < 0 then Except.error ()
  else
    let ms := get_messages db limit offset from_filter since q
    Except.ok (ms.1, ms.2, limit, offset)

/-! ## Helper lemmas about the query path -/

theorem sqlLimit_sublist (n : Int) (l : List Row) : (sqlLimit n l).Sublist l := by
  unfold sqlLimit; split
  · exact List.Sublist.refl l
  · exact List.take_sublist _ _

theorem sqlOffset_sublist (n : Int) (l : List Row) : (sqlOffset n l).Sublist l :=
  List.drop_sublist _ _

theorem page_sublist_sorted (db : List Row) (limit offset : Int)
    (f s q : Option String) :
    ((get_messages db limit offset f s q).1).Sublist
      (sortRows (db.filter (whereMatch f s q))) :=
  (sqlLimit_sublist _ _).trans (sqlOffset_sublist _ _)

theorem page_sorted (db : List Row) (limit offset : Int) (f s q : Option String) :
    ((get_messages db limit offset f s q).1).Sorted rowOrd :=
  List.Pairwise.sublist (page_sublist_sorted db limit offset f s q)
    (List.sorted_insertionSort rowOrd _)

theorem page_mem_filter {db : List Row} {limit offset : Int}
    {f s q : Option String} {r : Row}
    (hr : r ∈ (get_messages db limit offset f s q).1) :
    r ∈ db.filter (whereMatch f s q) := by
  have h1 : r ∈ sortRows (db.filter (whereMatch f s q)) :=
    (page_sublist_sorted db limit offset f s q).mem hr
  exact (List.perm_insertionSort rowOrd _).mem_iff.mp h1

/-- Sample rows used by concrete witnesses and counterexamples below. -/
def rowA : Row :=
  ⟨"m1", "+919876543210", "+14155550100", "2025-01-15T10:00:00Z",
    some "Hello", "2025-01-15T10:00:05Z"⟩

/-- A second sample row: a different sender, an earlier timestamp and a
NULL `text`. -/
def rowB : Row :=
  ⟨"m2", "+911234567890", "+14155550100", "2025-01-15T09:00:00Z",
    none, "2025-01-15T10:00:06Z"⟩

/-! ## Claim C6: ordering of the returned page -/

/-- C6: for every stored message set, filter combination and limit/offset,
consecutive messages of the page returned by `get_messages` are ordered
ascending by `ts` with ties broken by ascending `message_id`: the pair
`(ts, message_id)` is lexicographically non-decreasing between the entries
at positions `i` and `i + 1`. -/
theorem c6_page_ordering (db : List Row) (limit offset : Int)
    (f s q : Option String) (i : Nat)
    (h : i + 1 < ((get_messages db limit offset f s q).1).length) :
    strLt (((get_messages db limit offset f s q).1).get
        ⟨i, Nat.lt_of_succ_lt h⟩).ts
      (((get_messages db limit offset f s q).1).get ⟨i + 1, h⟩).ts = true
    ∨ ((((get_messages db limit offset f s q).1).get
          ⟨i, Nat.lt_of_succ_lt h⟩).ts
        = (((get_messages db limit offset f s q).1).get ⟨i + 1, h⟩).ts
      ∧ strLe (((get_messages db limit offset f s q).1).get
            ⟨i, Nat.lt_of_succ_lt h⟩).message_id
          (((get_messages db limit offset f s q).1).get ⟨i + 1, h⟩).message_id
          = true) := by
  have hs := page_sorted db limit offset f s q
  exact hs.rel_get_of_lt
    (show (⟨i, Nat.lt_of_succ_lt h⟩ : Fin _) < ⟨i + 1, h⟩ from
      Fin.mk_lt_mk.mpr (Nat.lt_succ_self i))

/-- Witness for C6 at a concrete store and page position. -/
theorem c6_witness :
    0 + 1 < ((get_messages [rowA, rowB] 50 0 none none none).1).length
    ∧ (strLt (((get_messages [rowA, rowB] 50 0 none none none).1).get
          ⟨0, by decide⟩).ts
        (((get_messages [rowA, rowB] 50 0 none none none).1).get
          ⟨0 + 1, by decide⟩).ts = true
      ∨ ((((get_messages [rowA, rowB] 50 0 none none none).1).get
            ⟨0, by decide⟩).ts
          = (((get_messages [rowA, rowB] 50 0 none none none).1).get
            ⟨0 + 1, by decide⟩).ts
        ∧ strLe (((get_messages [rowA, rowB] 50 0 none none none).1).get
              ⟨0, by decide⟩).message_id
            (((get_messages [rowA, rowB] 50 0 none none none).1).get
              ⟨0 + 1, by decide⟩).message_id = true)) :=
  ⟨by decide, c6_page_ordering [rowA, rowB] 50 0 none none none 0 (by decide)⟩

/-! ## Claim C5: filter composition and the total count -/

/-- Case-sensitive beginning-of-list test, used only to state the spec's
notion of "substring" for comparison with the code. -/
def beginsWithL : List Char → List Char → Bool
  | [], _ => true
  | _ :: _, [] => false
  | a :: s, b :: t => a == b && beginsWithL s t

/-- Case-sensitive occurrence test on character lists. -/
def subOfL : List Char → List Char → Bool
  | n, [] => n.isEmpty
  | n, c :: t => beginsWithL n (c :: t) || subOfL n t

/-- The claim's reading of the `q` filter, taken from the spec's words:
`textQuery` "occurring as a substring of text" — a case-sensitive,
wildcard-free substring test.  Stated only to compare against the code's
`text LIKE '%q%'`. -/
def claimSubstring (needle hay : String) : Bool :=
  subOfL needle.data hay.data

/-- Counterexample to C5 as stated: SQLite's `LIKE` is ASCII
case-insensitive and interprets `%`/`_` as wildcards, so `q = "hello"`
(and likewise `q = "h_l%"`) selects the row whose `text` is `"Hello"`,
although neither is a substring of `"Hello"`; the claim predicts a total
of 0 for both queries, the code returns 1. -/
theorem c5_counterexample :
    (get_messages [rowA] 50 0 none none (some "hello")).2 = 1
    ∧ claimSubstring "hello" "Hello" = false
    ∧ (get_messages [rowA] 50 0 none none (some "h_l%")).2 = 1
    ∧ claimSubstring "h_l%" "Hello" = false := by
  decide

/-- C5 (amended): `get_messages` returns exactly the rows satisfying the
conjunction of the three filters, where the text filter is SQLite
`text LIKE '%q%'` (ASCII-case-insensitive, `%`/`_` acting as wildcards,
NULL `text` never matching) rather than a plain substring test: the
returned `total` is the number of all rows satisfying the conjunction and
does not depend on `limit`/`offset`; every row of the returned page
satisfies all three filters; and with no LIMIT the page is a permutation
of exactly the satisfying rows. -/
theorem c5_filter_composition (db : List Row) (limit offset : Int)
    (f s q : Option String) :
    (get_messages db limit offset f s q).2
        = (db.filter (fun r => condFrom f r && condSince s r && condQ q r)).length
    ∧ (∀ limit2 offset2 : Int,
        (get_messages db limit offset f s q).2
          = (get_messages db limit2 offset2 f s q).2)
    ∧ (∀ r ∈ (get_messages db limit offset f s q).1,
        condFrom f r = true ∧ condSince s r = true ∧ condQ q r = true)
    ∧ ((get_messages db (-1) 0 f s q).1).Perm
        (db.filter (fun r => condFrom f r && condSince s r && condQ q r)) := by
  refine ⟨rfl, fun _ _ => rfl, ?_, ?_⟩
  · intro r hr
    have h1 := page_mem_filter hr
    have h2 := List.of_mem_filter h1
    simp only [whereMatch, Bool.and_eq_true] at h2
    exact ⟨h2.1.1, h2.1.2, h2.2⟩
  · exact List.perm_insertionSort rowOrd _

/-- Witness for C5 (amended) at a concrete store and query. -/
theorem c5_witness :
    (get_messages [rowA, rowB] 50 0 none none (some "hello")).2
        = (([rowA, rowB] : List Row).filter
            (fun r => condFrom none r && condSince none r
              && condQ (some "hello") r)).length
    ∧ (condFrom none rowA = true ∧ condSince none rowA = true
        ∧ condQ (some "hello") rowA = true) :=
  ⟨(c5_filter_composition [rowA, rowB] 50 0 none none (some "hello")).1,
    (c5_filter_composition [rowA, rowB] 50 0 none none (some "hello")).2.2.1
      rowA (by decide)⟩

/-! ## Claim C10: empty filter parameters behave as omitted -/

/-- C10: a `GET /messages` request in which `from`, `since` or `q` is
present but equal to the empty string behaves exactly as if the parameter
were omitted, because `get_messages` only applies a filter under Python
truthiness (`if from_filter:` etc.) and `""` is falsy. -/
theorem c10_empty_filters_ignored (db : List Row) (limitQ offsetQ : Option Int)
    (f s q : Option String) :
    list_messages db limitQ offsetQ (some "") s q
        = list_messages db limitQ offsetQ none s q
    ∧ list_messages db limitQ offsetQ f (some "") q
        = list_messages db limitQ offsetQ f none q
    ∧ list_messages db limitQ offsetQ f s (some "")
        = list_messages db limitQ offsetQ f s none := by
  have he : "".isEmpty = true := rfl
  have hf : whereMatch (some "") s q = whereMatch none s q := by
    funext r; simp [whereMatch, condFrom, pyTruthy, he]
  have hs : whereMatch f (some "") q = whereMatch f none q := by
    funext r; simp [whereMatch, condSince, pyTruthy, he]
  have hq : whereMatch f s (some "") = whereMatch f s none := by
    funext r; simp [whereMatch, condQ, pyTruthy, he]
  refine ⟨?_, ?_, ?_⟩ <;>
    simp only [list_messages, get_messages, hf, hs, hq]

/-! ## Claim C7: pagination bounds at the endpoint -/

/-- C7: `limit` defaults to 50 when omitted; a request with `limit`
outside `[1, 100]` or with `offset < 0` is rejected with 422 by the
framework before the store is consulted (the response does not depend on
the store contents); `limit = 100` with any `offset ≥ 0` is accepted. -/
theorem c7_pagination_bounds (db db2 : List Row) (f s q : Option String) :
    (list_messages db none none f s q
        = Except.ok ((get_messages db 50 0 f s q).1,
            (get_messages db 50 0 f s q).2, 50, 0))
    ∧ (∀ o : Int, 0 ≤ o →
        list_messages db none (some o) f s q
          = Except.ok ((get_messages db 50 o f s q).1,
              (get_messages db 50 o f s q).2, 50, o))
    ∧ (∀ l : Int, ∀ offsetQ : Option Int, l < 1 ∨ 100 < l →
        list_messages db (some l) offsetQ f s q = Except.error ()
        ∧ list_messages db (some l) offsetQ f s q
            = list_messages db2 (some l) offsetQ f s q)
    ∧ (∀ lq : Option Int, ∀ o : Int, o < 0 →
        list_messages db lq (some o) f s q = Except.error ()
        ∧ list_messages db lq (some o) f s q
            = list_messages db2 lq (some o) f s q)
    ∧ (∀ o : Int, 0 ≤ o →
        ∃ page total,
          list_messages db (some 100) (some o) f s q
            = Except.ok (page, total, 100, o)) := by
  refine ⟨?_, ?_, ?_, ?_, ?_⟩
  · simp only [list_messages, Option.getD]
    rw [if_neg (by omega)]
  · intro o ho
    simp only [list_messages, Option.getD]
    rw [if_neg (by omega)]
  · intro l offsetQ hl
    constructor
    · simp only [list_messages, Option.getD]
      rw [if_pos (by omega)]
    · simp only [list_messages, Option.getD]
      rw [if_pos (by omega), if_pos (by omega)]
  · intro lq o ho
    constructor
    · simp only [list_messages, Option.getD]
      rw [if_pos (by omega)]
    · simp only [list_messages, Option.getD]
      rw [if_pos (by omega), if_pos (by omega)]
  · intro o ho
    simp only [list_messages, Option.getD]
    rw [if_neg (by omega)]
    exact ⟨_, _, rfl⟩

/-- Witness for C7 at a concrete store: `limit=150` and `limit=0` are
rejected independently of the store, `limit=100` is accepted, and an
omitted `limit` defaults to 50. -/
theorem c7_witness :
    ((150 : Int) < 1 ∨ (100 : Int) < 150)
    ∧ list_messages [rowA] (some 150) none none none none = Except.error ()
    ∧ list_messages [rowA] (some 0) none none none none = Except.error ()
    ∧ (∃ page total,
        list_messages [rowA] (some 100) (some 0) none none none
          = Except.ok (page, total, 100, 0))
    ∧ list_messages [rowA] none none none none none
        = Except.ok ((get_messages [rowA] 50 0 none none none).1,
            (get_messages [rowA] 50 0 none none none).2, 50, 0) := by
  refine ⟨by decide, ?_, ?_, ?_, ?_⟩
  · exact ((c7_pagination_bounds [rowA] [] none none none).2.2.1 150 none
      (by decide)).1
  · exact ((c7_pagination_bounds [rowA] [] none none none).2.2.1 0 none
      (by decide)).1
  · exact (c7_pagination_bounds [rowA] [] none none none).2.2.2.2 0
      (by decide)
  · exact (c7_pagination_bounds [rowA] [] none none none).1

/-! ## Claim C8: statistics -/

theorem minS_le_left (a b : String) : strLe (minS a b) a = true := by
  unfold minS; split
  · exact strLe_refl a
  · next h =>
    rcases strLe_total a b with h2 | h2
    · exact absurd h2 h
    · exact h2

theorem minS_le_right (a b : String) : strLe (minS a b) b = true := by
  unfold minS; split
  · next h => exact h
  · exact strLe_refl b

theorem minS_cases (a b : String) : minS a b = a ∨ minS a b = b := by
  unfold minS; split
  · exact Or.inl rfl
  · exact Or.inr rfl

theorem maxS_ge_left (a b : String) : strLe a (maxS a b) = true := by
  unfold maxS; split
  · next h => exact h
  · exact strLe_refl a

theorem maxS_ge_right (a b : String) : strLe b (maxS a b) = true := by
  unfold maxS; split
  · exact strLe_refl b
  · next h =>
    rcases strLe_total a b with h2 | h2
    · exact absurd h2 h
    · exact h2

theorem maxS_cases (a b : String) : maxS a b = a ∨ maxS a b = b := by
  unfold maxS; split
  · exact Or.inr rfl
  · exact Or.inl rfl

theorem foldl_minS_le_init :
    ∀ (xs : List String) (x : String), strLe (xs.foldl minS x) x = true := by
  intro xs
  induction xs with
  | nil => intro x; exact strLe_refl x
  | cons y ys ih =>
    intro x
    exact strLe_trans (ih (minS x y)) (minS_le_left x y)

theorem foldl_minS_le_mem :
    ∀ (xs : List String) (x y : String), y ∈ xs →
      strLe (xs.foldl minS x) y = true := by
  intro xs
  induction xs with
  | nil => intro x y h; cases h
  | cons z zs ih =>
    intro x y h
    rcases List.mem_cons.mp h with h1 | h2
    · subst h1
      exact strLe_trans (foldl_minS_le_init zs (minS x y)) (minS_le_right x y)
    · exact ih (minS x z) y h2

theorem foldl_minS_mem :
    ∀ (xs : List String) (x : String), xs.foldl minS x ∈ x :: xs := by
  intro xs
  induction xs with
  | nil => intro x; exact List.mem_singleton.mpr rfl
  | cons y ys ih =>
    intro x
    have h := ih (minS x y)
    rcases List.mem_cons.mp h with he | hm
    · rcases minS_cases x y with h1 | h1
      · exact List.mem_cons.mpr (Or.inl (he.trans h1))
      · exact List.mem_cons.mpr
          (Or.inr (List.mem_cons.mpr (Or.inl (he.trans h1))))
    · exact List.mem_cons.mpr (Or.inr (List.mem_cons.mpr (Or.inr hm)))

theorem foldl_maxS_ge_init :
    ∀ (xs : List String) (x : String), strLe x (xs.foldl maxS x) = true := by
  intro xs
  induction xs with
  | nil => intro x; exact strLe_refl x
  | cons y ys ih =>
    intro x
    exact strLe_trans (maxS_ge_left x y) (ih (maxS x y))

theorem foldl_maxS_ge_mem :
    ∀ (xs : List String) (x y : String), y ∈ xs →
      strLe y (xs.foldl maxS x) = true := by
  intro xs
  induction xs with
  | nil => intro x y h; cases h
  | cons z zs ih =>
    intro x y h
    rcases List.mem_cons.mp h with h1 | h2
    · subst h1
      exact strLe_trans (maxS_ge_right x y) (foldl_maxS_ge_init zs (maxS x y))
    · exact ih (maxS x z) y h2

theorem foldl_maxS_mem :
    ∀ (xs : List String) (x : String), xs.foldl maxS x ∈ x :: xs := by
  intro xs
  induction xs with
  | nil => intro x; exact List.mem_singleton.mpr rfl
  | cons y ys ih =>
    intro x
    have h := ih (maxS x y)
    rcases List.mem_cons.mp h with he | hm
    · rcases maxS_cases x y with h1 | h1
      · exact List.mem_cons.mpr (Or.inl (he.trans h1))
      · exact List.mem_cons.mpr
          (Or.inr (List.mem_cons.mpr (Or.inl (he.trans h1))))
    · exact List.mem_cons.mpr (Or.inr (List.mem_cons.mpr (Or.inr hm)))

theorem sqlMinTs_none_iff (db : List Row) : sqlMinTs db = none ↔ db = [] := by
  unfold sqlMinTs
  cases db with
  | nil => simp
  | cons r rs => simp

theorem sqlMaxTs_none_iff (db : List Row) : sqlMaxTs db = none ↔ db = [] := by
  unfold sqlMaxTs
  cases db with
  | nil => simp
  | cons r rs => simp

theorem sqlMinTs_spec {db : List Row} {a : String} (h : sqlMinTs db = some a) :
    a ∈ db.map (fun r => r.ts)
    ∧ ∀ t ∈ db.map (fun r => r.ts), strLe a t = true := by
  unfold sqlMinTs at h
  cases db with
  | nil => simp at h
  | cons r rs =>
    simp only [List.map_cons, Option.some.injEq] at h
    subst h
    refine ⟨foldl_minS_mem _ _, ?_⟩
    intro t ht
    rcases List.mem_cons.mp ht with h1 | h2
    · subst h1
      exact foldl_minS_le_init _ _
    · exact foldl_minS_le_mem _ _ _ h2

theorem sqlMaxTs_spec {db : List Row} {b : String} (h : sqlMaxTs db = some b) :
    b ∈ db.map (fun r => r.ts)
    ∧ ∀ t ∈ db.map (fun r => r.ts), strLe t b = true := by
  unfold sqlMaxTs at h
  cases db with
  | nil => simp at h
  | cons r rs =>
    simp only [List.map_cons, Option.some.injEq] at h
    subst h
    refine ⟨foldl_maxS_mem _ _, ?_⟩
    intro t ht
    rcases List.mem_cons.mp ht with h1 | h2
    · subst h1
      exact foldl_maxS_ge_init _ _
    · exact foldl_maxS_ge_mem _ _ _ h2

theorem senderCounts_sum (db : List Row) :
    ((senderCounts db).map (fun p => p.2)).sum = db.length := by
  unfold senderCounts distinctFroms
  rw [List.map_map]
  have hcong :
      ((db.map (fun r => r.from_msisdn)).dedup.map
          ((fun p : String × Nat => p.2)
            ∘ fun f => (f, db.countP (fun r => r.from_msisdn == f))))
        = (db.map (fun r => r.from_msisdn)).dedup.map
            (fun f => (db.map (fun r => r.from_msisdn)).count f) := by
    apply List.map_congr_left
    intro f _
    simp only [Function.comp, List.count, List.countP_map]
    rfl
  rw [hcong, List.sum_map_count_dedup_eq_length, List.length_map]

theorem topSenders_sum_le (db : List Row) :
    ((topSenders db).map (fun p => p.2)).sum ≤ db.length := by
  have hsub : (topSenders db).Sublist ((senderCounts db).insertionSort countDesc) :=
    List.take_sublist _ _
  have hmap : ((topSenders db).map (fun p => p.2)).Sublist
      (((senderCounts db).insertionSort countDesc).map (fun p => p.2)) :=
    hsub.map _
  have h1 : ((topSenders db).map (fun p => p.2)).sum
      ≤ (((senderCounts db).insertionSort countDesc).map (fun p => p.2)).sum :=
    List.Sublist.sum_le_sum hmap (by intro x _; exact Nat.zero_le x)
  have h2 : (((senderCounts db).insertionSort countDesc).map (fun p => p.2)).sum
      = ((senderCounts db).map (fun p => p.2)).sum :=
    ((List.perm_insertionSort countDesc _).map _).sum_eq
  rw [h2, senderCounts_sum] at h1
  exact h1

theorem topSenders_sorted (db : List Row) :
    (topSenders db).Sorted countDesc :=
  List.Pairwise.sublist (List.take_sublist _ _)
    (List.sorted_insertionSort countDesc _)

/-- C8: `get_stats` reports the exact number of rows, the exact number of
distinct senders, at most 10 per-sender entries sorted by count
descending whose counts sum to at most the total, and first/last
timestamps that are NULL exactly on an empty store and otherwise are the
minimum and maximum `ts` (so first ≤ last). -/
theorem c8_stats (db : List Row) :
    (get_stats db).total_messages = db.length
    ∧ (get_stats db).senders_count
        = (db.map (fun r => r.from_msisdn)).toFinset.card
    ∧ (get_stats db).messages_per_sender.length ≤ 10
    ∧ (∀ i (h : i + 1 < (get_stats db).messages_per_sender.length),
        ((get_stats db).messages_per_sender.get ⟨i + 1, h⟩).2
          ≤ ((get_stats db).messages_per_sender.get
              ⟨i, Nat.lt_of_succ_lt h⟩).2)
    ∧ ((get_stats db).messages_per_sender.map (fun p => p.2)).sum
        ≤ (get_stats db).total_messages
    ∧ ((get_stats db).first_message_ts = none ↔ db = [])
    ∧ ((get_stats db).last_message_ts = none ↔ db = [])
    ∧ (∀ a, (get_stats db).first_message_ts = some a →
        a ∈ db.map (fun r => r.ts)
        ∧ ∀ t ∈ db.map (fun r => r.ts), strLe a t = true)
    ∧ (∀ b, (get_stats db).last_message_ts = some b →
        b ∈ db.map (fun r => r.ts)
        ∧ ∀ t ∈ db.map (fun r => r.ts), strLe t b = true)
    ∧ (∀ a b, (get_stats db).first_message_ts = some a →
        (get_stats db).last_message_ts = some b → strLe a b = true) := by
  refine ⟨rfl, ?_, ?_, ?_, ?_, ?_, ?_, ?_, ?_, ?_⟩
  · show (distinctFroms db).length = _
    rw [List.card_toFinset]
    rfl
  · exact List.length_take_le _ _
  · intro i h
    exact (topSenders_sorted db).rel_get_of_lt
      (show (⟨i, Nat.lt_of_succ_lt h⟩ : Fin _) < ⟨i + 1, h⟩ from
        Fin.mk_lt_mk.mpr (Nat.lt_succ_self i))
  · exact topSenders_sum_le db
  · exact sqlMinTs_none_iff db
  · exact sqlMaxTs_none_iff db
  · intro a ha
    exact sqlMinTs_spec ha
  · intro b hb
    exact sqlMaxTs_spec hb
  · intro a b ha hb
    have h1 := (sqlMinTs_spec ha).1
    exact (sqlMaxTs_spec hb).2 a h1

/-- Witness for C8 at a concrete two-row store. -/
theorem c8_witness :
    (get_stats [rowA, rowB]).total_messages = 2
    ∧ ((get_stats [rowA, rowB]).messages_per_sender.map (fun p => p.2)).sum
        ≤ (get_stats [rowA, rowB]).total_messages
    ∧ ((get_stats [rowA, rowB]).messages_per_sender.get ⟨0 + 1, by decide⟩).2
        ≤ ((get_stats [rowA, rowB]).messages_per_sender.get ⟨0, by decide⟩).2
    ∧ strLe "2025-01-15T09:00:00Z" "2025-01-15T10:00:00Z" = true := by
  have h := c8_stats [rowA, rowB]
  refine ⟨h.1.trans rfl, h.2.2.2.2.1, ?_, ?_⟩
  · exact h.2.2.2.1 0 (by decide)
  · exact h.2.2.2.2.2.2.2.2.2 "2025-01-15T09:00:00Z" "2025-01-15T10:00:00Z"
      (by decide) (by decide)

/-! ## Payload validators (`app/models.py`)

The two pydantic field validators of `WebhookMessage` are embedded from
CPython semantics:

- `validate_e164` runs `re.match(r'^\+\d+$', v)`.  In Python 3, `\d` on a
  `str` pattern matches every character of Unicode category Nd (660
  characters in Unicode 14.0, the table below), and `$` matches at the end
  of the string or just before a trailing `'\n'`.
- `validate_iso8601` checks `v.endswith('Z')` and then parses
  `v.replace('Z', '+00:00')` (replacing EVERY `'Z'`) with
  `datetime.fromisoformat`.  The `fromisoformat` model below transcribes
  the CPython 3.11 C implementation (`_datetimemodule.c`), whose grammar
  is: a date in extended (`YYYY-MM-DD`), basic (`YYYYMMDD`) or ISO-week
  (`YYYY-Www[-D]` / `YYYYWww[D]`) form; then, optionally, one arbitrary
  separator character and a time `HH[:MM[:SS]]` (or compact `HH[MM[SS]]`)
  with an optional fraction, followed by an optional timezone
  (`Z` or `±HH[:MM[:SS]]`-shaped, compact or extended, with fraction),
  with the C implementation's exact quirks (one stray character tolerated
  between time and timezone, a third `:` component parsed as a fraction,
  offsets bounded strictly below 24 hours, calendar validation with leap
  years and per-year ISO week counts).
-/

/-- The 62 codepoint ranges of Unicode category Nd (Unicode 14.0, the
table used by CPython 3.11's `re` module for `\d` on `str` patterns). -/
def ndRanges : List (Nat × Nat) :=
  [(0x30, 0x39), (0x660, 0x669), (0x6F0, 0x6F9), (0x7C0, 0x7C9),
   (0x966, 0x96F), (0x9E6, 0x9EF), (0xA66, 0xA6F), (0xAE6, 0xAEF),
   (0xB66, 0xB6F), (0xBE6, 0xBEF), (0xC66, 0xC6F), (0xCE6, 0xCEF),
   (0xD66, 0xD6F), (0xDE6, 0xDEF), (0xE50, 0xE59), (0xED0, 0xED9),
   (0xF20, 0xF29), (0x1040, 0x1049), (0x1090, 0x1099), (0x17E0, 0x17E9),
   (0x1810, 0x1819), (0x1946, 0x194F), (0x19D0, 0x19D9), (0x1A80, 0x1A89),
   (0x1A90, 0x1A99), (0x1B50, 0x1B59), (0x1BB0, 0x1BB9), (0x1C40, 0x1C49),
   (0x1C50, 0x1C59), (0xA620, 0xA629), (0xA8D0, 0xA8D9), (0xA900, 0xA909),
   (0xA9D0, 0xA9D9), (0xA9F0, 0xA9F9), (0xAA50, 0xAA59), (0xABF0, 0xABF9),
   (0xFF10, 0xFF19), (0x104A0, 0x104A9), (0x10D30, 0x10D39),
   (0x11066, 0x1106F), (0x110F0, 0x110F9), (0x11136, 0x1113F),
   (0x111D0, 0x111D9), (0x112F0, 0x112F9), (0x11450, 0x11459),
   (0x114D0, 0x114D9), (0x11650, 0x11659), (0x116C0, 0x116C9),
   (0x11730, 0x11739), (0x118E0, 0x118E9), (0x11950, 0x11959),
   (0x11C50, 0x11C59), (0x11D50, 0x11D59), (0x11DA0, 0x11DA9),
   (0x16A60, 0x16A69), (0x16AC0, 0x16AC9), (0x16B50, 0x16B59),
   (0x1D7CE, 0x1D7FF), (0x1E140, 0x1E149), (0x1E2F0, 0x1E2F9),
   (0x1E950, 0x1E959), (0x1FBF0, 0x1FBF9)]

/-- Whether a character is matched by `\d` in a Python 3 `str` regex:
Unicode category Nd. -/
def isNd (c : Char) : Bool :=
  ndRanges.any (fun p => p.1 ≤ c.toNat && c.toNat ≤ p.2)

/-- The part of `re.match(r'^\+\d+$', v)` after `\d+` has consumed at
least one digit: more digits may follow, and `$` additionally matches
just before a single trailing newline. -/
def digitsTail : List Char → Bool
  | [] => true
  | c :: cs => if c == '\n' then cs.isEmpty else isNd c && digitsTail cs

/-- `\d+$` under Python `re` semantics: one or more Nd digits, optionally
followed by a single trailing newline. -/
def digitsPlus : List Char → Bool
  | [] => false
  | c :: cs => isNd c && digitsTail cs

/-- `re.match(r'^\+\d+$', v)` as a Boolean: the `validate_e164` pydantic
validator of `WebhookMessage` accepts `v` exactly when this holds. -/
def e164Match : List Char → Bool
  | [] => false
  | c :: rest => c == '+' && digitsPlus rest

/-- The `validate_e164` field validator of `app/models.py`. -/
def validate_e164 (v : String) : Bool := e164Match v.data

/-! ### CPython 3.11 `datetime.fromisoformat`, transcribed -/

/-- Numeric value of an ASCII digit character. -/
def digitVal (c : Char) : Nat := c.toNat - 48

/-- Value of a list of ASCII digits, most significant first. -/
def natOfDigits (cs : List Char) : Nat :=
  cs.foldl (fun a c => a * 10 + digitVal c) 0

/-- `parse_digits` of `_datetimemodule.c` for a 2-digit field: exactly two
ASCII digits. -/
def parse2 : List Char → Option (Nat × List Char)
  | d1 :: d2 :: rest =>
    if d1.isDigit && d2.isDigit then
      some (digitVal d1 * 10 + digitVal d2, rest)
    else none
  | _ => none

/-- Hour/minute/second/microsecond components returned by
`parse_hh_mm_ss_ff`. -/
structure HMSF where
  hh : Nat
  mm : Nat
  ss : Nat
  us : Nat
deriving DecidableEq, Repr

/-- Assemble components parsed so far (1, 2 or 3 of them) and a
microsecond value into an `HMSF`; missing components are 0. -/
def mkHMSF : List Nat → Nat → HMSF
  | [h], us => ⟨h, 0, 0, us⟩
  | [h, m], us => ⟨h, m, 0, us⟩
  | [h, m, s], us => ⟨h, m, s, us⟩
  | _, us => ⟨0, 0, 0, us⟩

/-- Result of `parse_hh_mm_ss_ff`: failure, or components together with
the C return value rv as a Bool (`true` for rv = 1, meaning one stray
boundary character was swallowed — only tolerated when a timezone
follows). -/
inductive PR where
  | err : PR
  | ok : HMSF → Bool → PR
deriving DecidableEq, Repr

/-- Fractional part: up to six ASCII digits are read (scaled to
microseconds), any remaining characters must also be ASCII digits and are
discarded; at least one digit must be present. -/
def parseFrac (cs : List Char) : Option Nat :=
  if cs.isEmpty then none
  else
    let toP := min 6 cs.length
    if (cs.take toP).all Char.isDigit && (cs.drop toP).all Char.isDigit then
      some (natOfDigits (cs.take toP) * 10 ^ (6 - toP))
    else none

/-- The component loop of `parse_hh_mm_ss_ff` in `_datetimemodule.c`
(CPython 3.11).  `fuel` is the number of components still allowed (3 at
entry); `hasSep` records, after the first component, whether the time is
in extended (`:`-separated) or compact form; `atEnd` tells whether the
slice being parsed ends at the true end of the whole string (then running
past the slice reads the NUL byte, rv = 0) or at a timezone sign
character (rv = 1).  When the loop exhausts all three components, the
remaining characters are parsed as a bare fraction (this is how the C
code parses `10:00:00:61` as `10:00:00.610000`). -/
def hmsfLoop : Nat → Option Bool → List Nat → List Char → Bool → PR
  | 0, _, acc, cs, _ =>
    (match parseFrac cs with
     | some us => PR.ok (mkHMSF acc us) false
     | none => PR.err)
  | fuel + 1, hasSep, acc, cs, atEnd =>
    (match parse2 cs with
     | none => PR.err
     | some (v, rest) =>
       let acc' := acc ++ [v]
       match rest with
       | [] => PR.ok (mkHMSF acc' 0) (!atEnd)
       | [_] => PR.ok (mkHMSF acc' 0) true
       | c :: rest' =>
         let hs := hasSep.getD (c == ':')
         if c == ':' then
           (if hs then hmsfLoop fuel (some hs) acc' rest' atEnd else PR.err)
         else if c == '.' || c == ',' then
           (match parseFrac rest' with
            | some us => PR.ok (mkHMSF acc' us) false
            | none => PR.err)
         else if hs then PR.err
         else hmsfLoop fuel (some hs) acc' (c :: rest') atEnd)

/-- Index of the first `'Z'`, `'+'` or `'-'` in the time string, where the
timezone part begins. -/
def findTz : List Char → Nat → Option Nat
  | [], _ => none
  | c :: cs, i =>
    if c == 'Z' || c == '+' || c == '-' then some i else findTz cs (i + 1)

/-- `parse_isoformat_time`: parses the time-of-day part and the optional
timezone; returns the time components and the offset in microseconds
(`none` = naive, `some 0` = UTC).  The offset must be strictly smaller
than 24 hours in absolute value (the `timezone` constructor's bound). -/
def parseTimeAndTz (tstr : List Char) : Option (HMSF × Option Int) :=
  match findTz tstr 0 with
  | none =>
    (match hmsfLoop 3 none [] tstr true with
     | PR.ok v false => some (v, none)
     | _ => none)
  | some i =>
    let timestr := tstr.take i
    let sign := tstr.get? i
    let rest := tstr.drop (i + 1)
    (match hmsfLoop 3 none [] timestr false with
     | PR.err => none
     | PR.ok v _ =>
       if sign == some 'Z' then
         (if rest.isEmpty then some (v, some 0) else none)
       else
         (match hmsfLoop 3 none [] rest true with
          | PR.ok w false =>
            let total : Int :=
              ((w.hh * 3600 + w.mm * 60 + w.ss) * 1000000 + w.us : Nat)
            if total < 86400000000 then
              some (v, some (if sign == some '-' then -total else total))
            else none
          | _ => none))

/-- Leap year in the proleptic Gregorian calendar. -/
def isLeap (y : Nat) : Bool := y % 4 == 0 && (y % 100 != 0 || y % 400 == 0)

/-- Lengths of the months of year `y`. -/
def monthDays (y : Nat) : List Nat :=
  [31, if isLeap y then 29 else 28, 31, 30, 31, 30, 31, 31, 30, 31, 30, 31]

/-- Number of days in month `m` of year `y` (0 for an invalid month). -/
def daysInMonth (y m : Nat) : Nat := ((monthDays y).get? (m - 1)).getD 0

/-- Days before January 1 of year `y` (`_days_before_year`). -/
def daysBeforeYear (y : Nat) : Int :=
  365 * ((y : Int) - 1) + ((y : Int) - 1) / 4 - ((y : Int) - 1) / 100
    + ((y : Int) - 1) / 400

/-- Proleptic Gregorian ordinal of the date (`_ymd2ord`): day 1 is
0001-01-01. -/
def ymd2ord (y m d : Nat) : Int :=
  daysBeforeYear y + (((monthDays y).take (m - 1)).sum : Nat) + (d : Int)

/-- Ordinal of the Monday starting ISO week 1 of year `y`
(`_isoweek1monday`). -/
def isoweek1monday (y : Nat) : Int :=
  let fd := ymd2ord y 1 1
  let fwd := (fd + 6) % 7
  let w1m := fd - fwd
  if fwd > 3 then w1m + 7 else w1m

/-- Validity of an ISO week date per `_isoweek_to_gregorian` followed by
the `datetime` constructor: the year in [1, 9999], the week within the
year's ISO week count (52, or 53 for years starting on Thursday and leap
years starting on Wednesday), the weekday in [1, 7], and the resulting
Gregorian date within year range (ordinals 1 to 3652059). -/
def weekDateOK (y wk d : Nat) : Bool :=
  (1 ≤ y && y ≤ 9999) &&
  ((0 < wk && wk < 53) ||
    (wk == 53 &&
      (let fwd := ymd2ord y 1 1 % 7
       fwd == 4 || (fwd == 3 && isLeap y)))) &&
  (0 < d && d < 8) &&
  (let o := isoweek1monday y + ((wk : Int) - 1) * 7 + ((d : Int) - 1)
   1 ≤ o && o ≤ 3652059)

/-- Validity of a year-month-day date per the `datetime` constructor. -/
def monthDateOK (y m d : Nat) : Bool :=
  1 ≤ y && 1 ≤ m && m ≤ 12 && 1 ≤ d && d ≤ daysInMonth y m

/-- `_parse_isoformat_date` (C semantics: fixed-width ASCII digit fields),
combined with the calendar validation of the `datetime` constructor. -/
def parse_isoformat_date (dstr : List Char) : Bool :=
  match dstr with
  | y1 :: y2 :: y3 :: y4 :: rest =>
    (if y1.isDigit && y2.isDigit && y3.isDigit && y4.isDigit then
      let y := natOfDigits [y1, y2, y3, y4]
      let hasSep := (match rest with | '-' :: _ => true | _ => false)
      let rest2 := (match rest with | '-' :: r => r | r => r)
      match rest2 with
      | 'W' :: w1 :: w2 :: r4 =>
        (if w1.isDigit && w2.isDigit then
          let wk := digitVal w1 * 10 + digitVal w2
          match r4 with
          | [] => weekDateOK y wk 1
          | ['-', d] => hasSep && d.isDigit && weekDateOK y wk (digitVal d)
          | [d] => !hasSep && d.isDigit && weekDateOK y wk (digitVal d)
          | _ => false
        else false)
      | m1 :: m2 :: r3 =>
        (if m1.isDigit && m2.isDigit then
          let m := digitVal m1 * 10 + digitVal m2
          let r4opt : Option (List Char) :=
            if hasSep then
              (match r3 with | '-' :: r => some r | _ => none)
            else
              (match r3 with | '-' :: _ => none | r => some r)
          match r4opt with
          | some [d1, d2] =>
            d1.isDigit && d2.isDigit
              && monthDateOK y m (digitVal d1 * 10 + digitVal d2)
          | _ => false
        else false)
      | _ => false
    else false)
  | _ => false

/-- Character of `s` at index `i`, NUL if out of range (matching the C
code's reads into the NUL-terminated buffer). -/
def chAt (s : List Char) (i : Nat) : Char := (s.get? i).getD (Char.ofNat 0)

/-- First index at or after position 7 whose character is not an ASCII
digit (the scan of `_find_isoformat_datetime_separator`). -/
def scanDigits : List Char → Nat → Nat
  | [], i => i
  | c :: cs, i => if c.isDigit then scanDigits cs (i + 1) else i

/-- `_find_isoformat_datetime_separator`: the position of the (arbitrary,
single-character) separator between the date and time parts.  Assumes
`s.length ≥ 7`. -/
def findSep (s : List Char) : Option Nat :=
  let n := s.length
  if n == 7 then some 7
  else if chAt s 4 == '-' then
    (if chAt s 5 == 'W' then
      (if n > 8 && chAt s 8 == '-' then
        (if n == 9 then none
         else if n > 10 && (chAt s 10).isDigit then some 8
         else some 10)
       else some 8)
     else some 10)
  else if chAt s 4 == 'W' then
    (let idx := scanDigits (s.drop 7) 7
     if idx < 9 then some idx
     else if idx % 2 == 0 then some 7 else some 8)
  else some 8

/-- Validity of the time components per the `datetime` constructor. -/
def timeValid (v : HMSF) : Bool := v.hh ≤ 23 && v.mm ≤ 59 && v.ss ≤ 59

/-- `datetime.fromisoformat` (CPython 3.11 C implementation) as an
acceptance predicate: does the string parse as a valid date-time? -/
def fromisoformatOK (s : List Char) : Bool :=
  if s.length < 7 then false
  else
    match findSep s with
    | none => false
    | some sep =>
      parse_isoformat_date (s.take sep) &&
      (if sep < s.length then
        (match parseTimeAndTz (s.drop (sep + 1)) with
         | some (v, _) => timeValid v
         | none => false)
       else true)

/-- Python `v.replace('Z', '+00:00')`: every occurrence of `'Z'` is
replaced, not only a trailing one. -/
def pyReplaceZ : List Char → List Char
  | [] => []
  | c :: cs =>
    if c == 'Z' then '+' :: '0' :: '0' :: ':' :: '0' :: '0' :: pyReplaceZ cs
    else c :: pyReplaceZ cs

/-- Python `v.endswith('Z')`. -/
def endsInZ : List Char → Bool
  | [] => false
  | [c] => c == 'Z'
  | _ :: rest => endsInZ rest

/-- The `validate_iso8601` field validator of `app/models.py`: the string
must end in `'Z'` and, after replacing every `'Z'` by `'+00:00'`, must be
accepted by `datetime.fromisoformat`. -/
def validate_iso8601 (v : String) : Bool :=
  endsInZ v.data && fromisoformatOK (pyReplaceZ v.data)

/-! ## Claim C3: the E.164 validator -/

/-- The claim's reading of the `from`/`to` rule, from the spec's words:
`'+'` followed by one or more ASCII digits and nothing else.  Stated only
for comparison with the code's `re.match(r'^\+\d+$', v)`. -/
def claimE164 (v : String) : Bool :=
  match v.data with
  | '+' :: ds => !ds.isEmpty && ds.all Char.isDigit
  | _ => false

theorem isNd_nl : isNd '\n' = false := by decide

/-- Counterexample to C3 as stated: Python's `$` matches before a single
trailing newline and `\d` matches any Unicode decimal digit, so the
validator accepts `"+123\n"` and `"+٣"` (Arabic-Indic digit), which the
claim's ASCII-digits-and-nothing-else rule rejects. -/
theorem c3_counterexample :
    validate_e164 "+123\n" = true ∧ claimE164 "+123\n" = false
    ∧ validate_e164 "+٣" = true ∧ claimE164 "+٣" = false := by decide

theorem digitsTail_iff (l : List Char) :
    digitsTail l = true ↔
      (∀ c ∈ l, isNd c = true) ∨
        ∃ ds, l = ds ++ ['\n'] ∧ ∀ c ∈ ds, isNd c = true := by
  induction l with
  | nil =>
    constructor
    · intro _
      exact Or.inl (by intro c hc; cases hc)
    · intro _
      rfl
  | cons c cs ih =>
    by_cases hc : c = '\n'
    · subst hc
      rw [show digitsTail ('\n' :: cs) = cs.isEmpty from rfl]
      constructor
      · intro h
        have hcs : cs = [] := by
          cases cs with
          | nil => rfl
          | cons x xs => simp at h
        subst hcs
        exact Or.inr ⟨[], rfl, by intro x hx; cases hx⟩
      · intro h
        rcases h with h | ⟨ds, hds, hall⟩
        · have h2 := h '\n' (List.mem_cons_self _ _)
          rw [isNd_nl] at h2
          exact absurd h2 (by simp)
        · cases ds with
          | nil =>
            simp at hds
            simp [hds]
          | cons d ds' =>
            have h1 := List.cons.inj hds
            have h2 := hall d (List.mem_cons_self _ _)
            rw [← h1.1, isNd_nl] at h2
            exact absurd h2 (by simp)
    · have he : (c == '\n') = false := by simp [hc]
      rw [show digitsTail (c :: cs)
            = (if c == '\n' then cs.isEmpty else isNd c && digitsTail cs)
          from rfl, he]
      simp only [Bool.false_eq_true, if_false, Bool.and_eq_true, ih]
      constructor
      · rintro ⟨hnd, h | ⟨ds, hds, hall⟩⟩
        · refine Or.inl ?_
          intro x hx
          rcases List.mem_cons.mp hx with rfl | hx2
          · exact hnd
          · exact h x hx2
        · refine Or.inr ⟨c :: ds, by rw [hds]; rfl, ?_⟩
          intro x hx
          rcases List.mem_cons.mp hx with rfl | hx2
          · exact hnd
          · exact hall x hx2
      · rintro (h | ⟨ds, hds, hall⟩)
        · exact ⟨h c (List.mem_cons_self _ _),
            Or.inl (fun x hx => h x (List.mem_cons_of_mem _ hx))⟩
        · cases ds with
          | nil => exact absurd (List.cons.inj hds).1 hc
          | cons d ds' =>
            have h1 := List.cons.inj hds
            have hcnd := hall d (List.mem_cons_self _ _)
            rw [← h1.1] at hcnd
            refine ⟨hcnd, Or.inr ⟨ds', h1.2, ?_⟩⟩
            intro x hx
            exact hall x (List.mem_cons_of_mem _ hx)

/-- C3 (amended): `validate_e164` accepts `v` if and only if `v` is `'+'`
followed by one or more Unicode decimal digits (category Nd, Python's
`\d`), optionally followed by one single trailing newline (Python's `$`).
In particular every string of `'+'` followed by ASCII digits is accepted,
but acceptance is not limited to those. -/
theorem c3_e164_validation (v : String) :
    validate_e164 v = true ↔
      ∃ ds : List Char,
        (v.data = '+' :: ds ∨ v.data = '+' :: (ds ++ ['\n']))
        ∧ ds ≠ [] ∧ ∀ c ∈ ds, isNd c = true := by
  unfold validate_e164
  cases hv : v.data with
  | nil =>
    simp only [e164Match]
    constructor
    · intro h
      exact absurd h (by simp)
    · rintro ⟨ds, h | h, _, _⟩ <;> cases h
  | cons c cs =>
    rw [show e164Match (c :: cs) = (c == '+' && digitsPlus cs) from rfl]
    by_cases hc : c = '+'
    · subst hc
      rw [show (('+' == '+' : Bool) && digitsPlus cs) = digitsPlus cs by simp]
      cases cs with
      | nil =>
        rw [show digitsPlus [] = false from rfl]
        constructor
        · intro h
          exact absurd h (by simp)
        · rintro ⟨ds, h | h, hne, _⟩
          · cases List.cons.inj h |>.2
            exact absurd rfl hne
          · have := (List.cons.inj h).2
            exact absurd this.symm (by simp)
      | cons d ds0 =>
        rw [show digitsPlus (d :: ds0) = (isNd d && digitsTail ds0) from rfl,
          Bool.and_eq_true, digitsTail_iff]
        constructor
        · rintro ⟨hd, h | ⟨es, hes, hall⟩⟩
          · refine ⟨d :: ds0, Or.inl rfl, by simp, ?_⟩
            intro x hx
            rcases List.mem_cons.mp hx with rfl | hx2
            · exact hd
            · exact h x hx2
          · refine ⟨d :: es, Or.inr (by rw [hes]; rfl), by simp, ?_⟩
            intro x hx
            rcases List.mem_cons.mp hx with rfl | hx2
            · exact hd
            · exact hall x hx2
        · rintro ⟨ds, h | h, hne, hall⟩
          · have h2 : d :: ds0 = ds := (List.cons.inj h).2
            subst h2
            exact ⟨hall d (List.mem_cons_self _ _),
              Or.inl (fun x hx => hall x (List.mem_cons_of_mem _ hx))⟩
          · have h2 : d :: ds0 = ds ++ ['\n'] := (List.cons.inj h).2
            cases ds with
            | nil => exact absurd rfl hne
            | cons e es' =>
              have h3 := List.cons.inj h2
              have hd : isNd d = true := by
                rw [h3.1]; exact hall e (List.mem_cons_self _ _)
              refine ⟨hd, Or.inr ⟨es', h3.2, ?_⟩⟩
              intro x hx
              exact hall x (List.mem_cons_of_mem _ hx)
    · have he : (c == '+') = false := by simp [hc]
      rw [he]
      constructor
      · intro h
        exact absurd h (by simp)
      · rintro ⟨ds, h | h, _, _⟩
        · exact absurd (List.cons.inj h).1 hc
        · exact absurd (List.cons.inj h).1 hc

/-- Witness for C3 (amended) at the spec's canonical accepted number. -/
theorem c3_witness : validate_e164 "+919876543210" = true :=
  (c3_e164_validation "+919876543210").mpr
    ⟨("919876543210" : String).data, Or.inl (by decide), by decide, by decide⟩

/-! ## Claim C4: the timestamp validator -/

/-- The claim's reading of the `ts` rule, from the spec's words: replace
only the single TRAILING `'Z'` with `'+00:00'` and parse.  Stated only
for comparison with the code's `v.replace('Z', '+00:00')`, which
replaces every occurrence. -/
def claimTrailingZ (v : List Char) : List Char :=
  v.dropLast ++ ['+', '0', '0', ':', '0', '0']

/-- The acceptance predicate the claim describes: ends in `'Z'` and the
trailing-`'Z'`-replaced string parses. -/
def claimIso (v : String) : Bool :=
  endsInZ v.data && fromisoformatOK (claimTrailingZ v.data)

/-- Counterexample to C4 as stated: `fromisoformat` accepts any single
character — here a `'Z'` — as the date–time separator, so for
`ts = "2025-01-15Z10:00:00Z"` the claim's trailing-`Z` replacement parses
(`"2025-01-15Z10:00:00+00:00"`), yet the code replaces both `'Z'`s,
producing `"2025-01-15+00:0010:00:00+00:00"`, which does not parse: the
code rejects a `ts` the claim says is accepted. -/
theorem c4_counterexample :
    validate_iso8601 "2025-01-15Z10:00:00Z" = false
    ∧ claimIso "2025-01-15Z10:00:00Z" = true := by decide

theorem endsInZ_count : ∀ {l : List Char}, endsInZ l = true → 1 ≤ l.count 'Z' := by
  intro l
  induction l with
  | nil => intro h; exact absurd h (by simp [endsInZ])
  | cons c cs ih =>
    intro h
    cases cs with
    | nil =>
      have hc : c = 'Z' := by simpa [endsInZ] using h
      simp [hc]
    | cons d ds =>
      have h2 := ih (show endsInZ (d :: ds) = true from h)
      have h3 : (c :: d :: ds).count 'Z' = (d :: ds).count 'Z' + if c == 'Z' then 1 else 0 := by
        simp [List.count_cons]
      omega

theorem replaceZ_single : ∀ l : List Char, endsInZ l = true → l.count 'Z' = 1 →
    pyReplaceZ l = l.dropLast ++ ['+', '0', '0', ':', '0', '0'] := by
  intro l
  induction l with
  | nil => intro h _; exact absurd h (by simp [endsInZ])
  | cons c cs ih =>
    intro hz h1
    cases cs with
    | nil =>
      have hc : c = 'Z' := by simpa [endsInZ] using hz
      subst hc
      rfl
    | cons d ds =>
      have hz2 : endsInZ (d :: ds) = true := hz
      have hge := endsInZ_count hz2
      have hc : c ≠ 'Z' := by
        intro hcz
        subst hcz
        have h3 : ('Z' :: d :: ds).count 'Z' = (d :: ds).count 'Z' + 1 := by
          simp [List.count_cons]
        rw [h3] at h1
        omega
      have h1' : (d :: ds).count 'Z' = 1 := by
        have h3 : (c :: d :: ds).count 'Z' = (d :: ds).count 'Z' + if c == 'Z' then 1 else 0 := by
          simp [List.count_cons]
        rw [if_neg (by simpa using hc)] at h3
        omega
      have hrec := ih hz2 h1'
      show pyReplaceZ (c :: d :: ds) = _
      rw [show pyReplaceZ (c :: d :: ds)
            = (if c == 'Z' then
                '+' :: '0' :: '0' :: ':' :: '0' :: '0' :: pyReplaceZ (d :: ds)
               else c :: pyReplaceZ (d :: ds)) from rfl,
        if_neg (by simpa using hc), hrec]
      rfl

/-- C4 (amended): the `ts` validator accepts exactly the strings that end
in `'Z'` and whose image under replacing EVERY `'Z'` by `'+00:00'` is
accepted by `datetime.fromisoformat`; whenever `ts` contains exactly one
`'Z'` (necessarily the trailing one) this coincides with the claim's
replace-the-trailing-`'Z'` reading. -/
theorem c4_ts_validation (v : String) :
    (validate_iso8601 v
      = (endsInZ v.data && fromisoformatOK (pyReplaceZ v.data)))
    ∧ (v.data.count 'Z' = 1 → validate_iso8601 v = claimIso v) := by
  refine ⟨rfl, ?_⟩
  intro h1
  unfold validate_iso8601 claimIso claimTrailingZ
  cases hz : endsInZ v.data with
  | false => rfl
  | true => rw [replaceZ_single v.data hz h1]

/-- Witness for C4 (amended) at the spec's canonical accepted timestamp. -/
theorem c4_witness :
    ("2025-01-15T10:00:00Z" : String).data.count 'Z' = 1
    ∧ validate_iso8601 "2025-01-15T10:00:00Z" = claimIso "2025-01-15T10:00:00Z"
    ∧ validate_iso8601 "2025-01-15T10:00:00Z" = true :=
  ⟨by decide, (c4_ts_validation "2025-01-15T10:00:00Z").2 (by decide), by decide⟩

/-! ## Signature verification (`app/main.py`)

`verify_signature` computes `hmac.new(secret, body, hashlib.sha256).hexdigest()`
and compares it to the provided signature with `hmac.compare_digest`.
SHA-256 and HMAC are implemented below over byte lists with plain `Nat`
arithmetic reduced mod 2^32. -/

def w32 (x : Nat) : Nat := x % 4294967296

def wadd (a b : Nat) : Nat := (a + b) % 4294967296

def wnot (x : Nat) : Nat := 4294967295 - x

def rotr (n x : Nat) : Nat := (x >>> n) + ((x % (1 <<< n)) <<< (32 - n))

def chF (x y z : Nat) : Nat := (x &&& y) ^^^ ((wnot x) &&& z)

def majF (x y z : Nat) : Nat := (x &&& y) ^^^ (x &&& z) ^^^ (y &&& z)

def bsig0 (x : Nat) : Nat := rotr 2 x ^^^ rotr 13 x ^^^ rotr 22 x

def bsig1 (x : Nat) : Nat := rotr 6 x ^^^ rotr 11 x ^^^ rotr 25 x

def ssig0 (x : Nat) : Nat := rotr 7 x ^^^ rotr 18 x ^^^ (x >>> 3)

def ssig1 (x : Nat) : Nat := rotr 17 x ^^^ rotr 19 x ^^^ (x >>> 10)

def sha256K : List Nat :=
  [1116352408, 1899447441, 3049323471, 3921009573, 961987163,
   1508970993, 2453635748, 2870763221, 3624381080, 310598401, 607225278,
   1426881987, 1925078388, 2162078206, 2614888103, 3248222580,
   3835390401, 4022224774, 264347078, 604807628, 770255983, 1249150122,
   1555081692, 1996064986, 2554220882, 2821834349, 2952996808,
   3210313671, 3336571891, 3584528711, 113926993, 338241895, 666307205,
   773529912, 1294757372, 1396182291, 1695183700, 1986661051,
   2177026350, 2456956037, 2730485921, 2820302411, 3259730800,
   3345764771, 3516065817, 3600352804, 4094571909, 275423344, 430227734,
   506948616, 659060556, 883997877, 958139571, 1322822218, 1537002063,
   1747873779, 1955562222, 2024104815, 2227730452, 2361852424,
   2428436474, 2756734187, 3204031479, 3329325298]

def sha256H0 : List Nat :=
  [1779033703, 3144134277, 1013904242, 2773480762, 1359893119,
   2600822924, 528734635, 1541459225]

def bytesToWords : List Nat → List Nat
  | b1 :: b2 :: b3 :: b4 :: rest =>
    (((b1 * 256 + b2) * 256 + b3) * 256 + b4) :: bytesToWords rest
  | _ => []

def extendW : Nat → List Nat → List Nat
  | 0, w => w
  | f + 1, w =>
    let n := w.length
    let t := wadd (wadd (ssig1 (w.getD (n - 2) 0)) (w.getD (n - 7) 0))
      (wadd (ssig0 (w.getD (n - 15) 0)) (w.getD (n - 16) 0))
    extendW f (w ++ [t])

def sha256Round (st : List Nat) (kw : Nat × Nat) : List Nat :=
  match st with
  | [a, b, c, d, e, f, g, h] =>
    let t1 := wadd h (wadd (bsig1 e) (wadd (chF e f g) (wadd kw.1 kw.2)))
    let t2 := wadd (bsig0 a) (majF a b c)
    [wadd t1 t2, a, b, c, wadd d t1, e, f, g]
  | other => other

def sha256Compress (h : List Nat) (block : List Nat) : List Nat :=
  let w := extendW 48 (bytesToWords block)
  let st := (sha256K.zip w).foldl sha256Round h
  (h.zip st).map (fun p => wadd p.1 p.2)

def chunk64 : Nat → List Nat → List (List Nat)
  | 0, _ => []
  | _, [] => []
  | f + 1, l => l.take 64 :: chunk64 f (l.drop 64)

def sha256 (msg : List Nat) : List Nat :=
  let r := msg.length % 64
  let padLen := (119 - r) % 64
  let bitLen := msg.length * 8
  let lenB := [bitLen / 72057594037927936 % 256, bitLen / 281474976710656 % 256,
    bitLen / 1099511627776 % 256, bitLen / 4294967296 % 256,
    bitLen / 16777216 % 256, bitLen / 65536 % 256, bitLen / 256 % 256,
    bitLen % 256]
  let padded := msg ++ 128 :: List.replicate padLen 0 ++ lenB
  let hh := (chunk64 padded.length padded).foldl sha256Compress sha256H0
  (hh.map (fun w => [w / 16777216 % 256, w / 65536 % 256, w / 256 % 256,
    w % 256])).flatten

def hmacSha256 (key msg : List Nat) : List Nat :=
  let k0 := if 64 < key.length then sha256 key else key
  let k := k0 ++ List.replicate (64 - k0.length) 0
  sha256 ((k.map (fun b => b ^^^ 92)) ++
    sha256 ((k.map (fun b => b ^^^ 54)) ++ msg))

def hexChar (n : Nat) : Char :=
  if n < 10 then Char.ofNat (48 + n) else Char.ofNat (87 + n)

def toHex (bs : List Nat) : List Char :=
  (bs.map (fun b => [hexChar (b / 16), hexChar (b % 16)])).flatten

def strBytes (s : String) : List Nat := s.data.map Char.toNat

/-- The hexadecimal digest `hmac.new(secret, body, hashlib.sha256).hexdigest()`
computed by `verify_signature` in `app/main.py` (64 lowercase hex
characters). -/
def hmacHexDigest (key msg : List Nat) : String :=
  ⟨toHex (hmacSha256 key msg)⟩

/-- Whether every character of the list is ASCII. -/
def allAscii (s : List Char) : Bool := s.all (fun c => c.toNat < 128)

/-- Python's `hmac.compare_digest` on two `str` arguments: both must be
ASCII-only, otherwise a `TypeError` is raised (`Except.error`); for ASCII
arguments it returns the (constant-time) equality of the two strings. -/
def compare_digest (a b : String) : Except Unit Bool :=
  if allAscii a.data && allAscii b.data then Except.ok (a == b)
  else Except.error ()

/-- The function `verify_signature` of `app/main.py`, with the configured
secret (`settings.WEBHOOK_SECRET.encode()`) and the raw request body as
byte lists. -/
def verify_signature (secret body : List Nat) (signature : String) :
    Except Unit Bool :=
  compare_digest (hmacHexDigest secret body) signature

/-! ## Claim C2: totality and correctness of signature verification -/

theorem sha256Round_length (st : List Nat) (kw : Nat × Nat) :
    (sha256Round st kw).length = st.length := by
  unfold sha256Round
  split
  · rfl
  · rfl

theorem foldl_round_length (l : List (Nat × Nat)) :
    ∀ st : List Nat, (l.foldl sha256Round st).length = st.length := by
  induction l with
  | nil => intro st; rfl
  | cons p t ih =>
    intro st
    rw [List.foldl_cons, ih, sha256Round_length]

theorem sha256Compress_length (h block : List Nat) :
    (sha256Compress h block).length = h.length := by
  unfold sha256Compress
  rw [List.length_map, List.length_zip, foldl_round_length]
  exact Nat.min_self _

theorem foldl_compress_length (bs : List (List Nat)) :
    ∀ h : List Nat, (bs.foldl sha256Compress h).length = h.length := by
  induction bs with
  | nil => intro h; rfl
  | cons b t ih =>
    intro h
    rw [List.foldl_cons, ih, sha256Compress_length]

theorem wordsToBytes_length (ws : List Nat) :
    ((ws.map (fun w => [w / 16777216 % 256, w / 65536 % 256, w / 256 % 256,
      w % 256])).flatten).length = 4 * ws.length := by
  induction ws with
  | nil => rfl
  | cons w t ih =>
    simp only [List.map_cons, List.flatten_cons, List.length_append, ih,
      List.length_cons]
    simp
    omega

theorem sha256_length (msg : List Nat) : (sha256 msg).length = 32 := by
  unfold sha256
  rw [wordsToBytes_length, foldl_compress_length]
  rfl

theorem wordsToBytes_lt (ws : List Nat) :
    ∀ b ∈ (ws.map (fun w => [w / 16777216 % 256, w / 65536 % 256,
      w / 256 % 256, w % 256])).flatten, b < 256 := by
  induction ws with
  | nil => intro b hb; cases hb
  | cons w t ih =>
    intro b hb
    simp only [List.map_cons, List.flatten_cons, List.mem_append] at hb
    rcases hb with hb | hb
    · simp only [List.mem_cons, List.not_mem_nil, or_false] at hb
      rcases hb with rfl | rfl | rfl | rfl <;> exact Nat.mod_lt _ (by omega)
    · exact ih b hb

theorem sha256_bytes_lt (msg : List Nat) : ∀ b ∈ sha256 msg, b < 256 := by
  unfold sha256
  exact wordsToBytes_lt _

/-- Lowercase hexadecimal characters, the alphabet of `hexdigest()`. -/
def isHexLower (c : Char) : Bool :=
  (48 ≤ c.toNat && c.toNat ≤ 57) || (97 ≤ c.toNat && c.toNat ≤ 102)

theorem hexChar_hexLower {n : Nat} (h : n < 16) : isHexLower (hexChar n) = true := by
  interval_cases n <;> decide

theorem toHex_length (bs : List Nat) : (toHex bs).length = 2 * bs.length := by
  unfold toHex
  induction bs with
  | nil => rfl
  | cons b t ih =>
    simp only [List.map_cons, List.flatten_cons, List.length_append, ih]
    simp
    omega

theorem toHex_hexLower (bs : List Nat) (hb : ∀ b ∈ bs, b < 256) :
    ∀ c ∈ toHex bs, isHexLower c = true := by
  unfold toHex
  induction bs with
  | nil => intro c hc; cases hc
  | cons b t ih =>
    intro c hc
    simp only [List.map_cons, List.flatten_cons, List.mem_append] at hc
    rcases hc with hc | hc
    · have hblt := hb b (List.mem_cons_self _ _)
      simp only [List.mem_cons, List.not_mem_nil, or_false] at hc
      rcases hc with rfl | rfl
      · exact hexChar_hexLower (by omega)
      · exact hexChar_hexLower (Nat.mod_lt _ (by omega))
    · exact ih (fun x hx => hb x (List.mem_cons_of_mem _ hx)) c hc

theorem hmacHexDigest_length (key msg : List Nat) :
    (hmacHexDigest key msg).data.length = 64 := by
  show (toHex (hmacSha256 key msg)).length = 64
  rw [toHex_length]
  unfold hmacSha256
  rw [sha256_length]

theorem hmacHexDigest_hexLower (key msg : List Nat) :
    ∀ c ∈ (hmacHexDigest key msg).data, isHexLower c = true := by
  show ∀ c ∈ toHex (hmacSha256 key msg), _
  exact toHex_hexLower _ (sha256_bytes_lt _)

theorem hexLower_ascii {c : Char} (h : isHexLower c = true) : c.toNat < 128 := by
  simp only [isHexLower, Bool.or_eq_true, Bool.and_eq_true,
    decide_eq_true_eq] at h
  omega

theorem hmacHexDigest_ascii (key msg : List Nat) :
    allAscii (hmacHexDigest key msg).data = true := by
  rw [allAscii, List.all_eq_true]
  intro c hc
  simpa using hexLower_ascii (hmacHexDigest_hexLower key msg c hc)

/-- Counterexample to C2 as stated: `hmac.compare_digest` on `str`
arguments raises `TypeError` when an argument contains a non-ASCII
character, so a signature header such as `"é"` (reachable, since HTTP
header bytes are decoded as latin-1) makes `verify_signature` raise
instead of returning `False`; FastAPI then answers 500, not 401. -/
theorem c2_counterexample :
    verify_signature (strBytes "testsecret") (strBytes "hello") "é"
      = Except.error () := by
  have h : allAscii ("é" : String).data = false := by decide
  simp [verify_signature, compare_digest, h]

/-- C2 (amended): for every secret, body and ASCII-only provided
signature, verification is total and returns a Boolean: `true` exactly
when the signature equals the lowercase hex HMAC-SHA256 of the body under
the secret, hence `false` for the empty signature, for any signature of
the wrong length, and for any signature containing a character outside
`0-9a-f`; a signature containing a non-ASCII character instead raises
`TypeError`. -/
theorem c2_verify_signature (secret body : List Nat) (sig : String) :
    (allAscii sig.data = true →
      verify_signature secret body sig
        = Except.ok (hmacHexDigest secret body == sig))
    ∧ verify_signature secret body "" = Except.ok false
    ∧ (allAscii sig.data = true → sig.data.length ≠ 64 →
        verify_signature secret body sig = Except.ok false)
    ∧ (allAscii sig.data = true →
        (∃ c ∈ sig.data, isHexLower c = false) →
        verify_signature secret body sig = Except.ok false)
    ∧ verify_signature secret body (hmacHexDigest secret body)
        = Except.ok true
    ∧ (allAscii sig.data = false →
        verify_signature secret body sig = Except.error ()) := by
  have hda := hmacHexDigest_ascii secret body
  have hne : ∀ t : String, t ≠ hmacHexDigest secret body →
      (hmacHexDigest secret body == t) = false := by
    intro t h
    exact beq_eq_false_iff_ne.mpr (fun e => h e.symm)
  have key : ∀ s : String, allAscii s.data = true →
      verify_signature secret body s
        = Except.ok (hmacHexDigest secret body == s) := by
    intro s hs
    unfold verify_signature compare_digest
    rw [hda, hs]
    rfl
  refine ⟨fun ha => key sig ha, ?_, ?_, ?_, ?_, ?_⟩
  · have hz : (hmacHexDigest secret body == "") = false := by
      apply hne ""
      intro h
      have hlen := hmacHexDigest_length secret body
      rw [← h] at hlen
      simp at hlen
    rw [key "" (by decide), hz]
  · intro ha hlen
    have hz : (hmacHexDigest secret body == sig) = false := by
      apply hne sig
      intro h
      rw [h] at hlen
      exact hlen (hmacHexDigest_length secret body)
    rw [key sig ha, hz]
  · intro ha hbad
    obtain ⟨c, hc, hcf⟩ := hbad
    have hz : (hmacHexDigest secret body == sig) = false := by
      apply hne sig
      intro h
      have h2 := hmacHexDigest_hexLower secret body c (by rw [← h]; exact hc)
      rw [hcf] at h2
      exact absurd h2 (by simp)
    rw [key sig ha, hz]
  · rw [key _ hda]
    have : (hmacHexDigest secret body == hmacHexDigest secret body) = true :=
      beq_self_eq_true _
    rw [this]
  · intro ha
    unfold verify_signature compare_digest
    rw [hda, ha]
    rfl

/-- Witness for C2 (amended) at a concrete secret, body and signatures. -/
theorem c2_witness :
    allAscii ("deadbeef" : String).data = true
    ∧ verify_signature (strBytes "testsecret") (strBytes "hello") "deadbeef"
        = Except.ok false
    ∧ verify_signature (strBytes "testsecret") (strBytes "hello") ""
        = Except.ok false
    ∧ verify_signature (strBytes "testsecret") (strBytes "hello")
        (hmacHexDigest (strBytes "testsecret") (strBytes "hello"))
        = Except.ok true := by
  refine ⟨by decide, ?_, ?_, ?_⟩
  · exact (c2_verify_signature (strBytes "testsecret") (strBytes "hello")
      "deadbeef").2.2.1 (by decide) (by decide)
  · exact (c2_verify_signature (strBytes "testsecret") (strBytes "hello")
      "deadbeef").2.1
  · exact (c2_verify_signature (strBytes "testsecret") (strBytes "hello")
      "deadbeef").2.2.2.2.1

/-! ## JSON body parsing (`WebhookMessage.model_validate_json`)

`model_validate_json` decodes the raw body as UTF-8, parses it as JSON
(pydantic v2 is strict JSON; duplicate keys keep the last value), and
then validates the five fields of `WebhookMessage`.  Extra fields are
ignored; `text` is optional and may be JSON null. -/

deriving instance DecidableEq for Except

/-- Strict UTF-8 decoding of a byte list (rejecting overlong encodings
and surrogates), as Python's `bytes.decode('utf-8')` inside the JSON
parser. -/
def utf8Decode : List Nat → Option (List Char)
  | [] => some []
  | b1 :: rest =>
    if b1 < 128 then (utf8Decode rest).map (fun t => Char.ofNat b1 :: t)
    else if 194 ≤ b1 && b1 ≤ 223 then
      (match rest with
       | b2 :: rest2 =>
         if 128 ≤ b2 && b2 ≤ 191 then
           (utf8Decode rest2).map
             (fun t => Char.ofNat ((b1 - 192) * 64 + (b2 - 128)) :: t)
         else none
       | _ => none)
    else if 224 ≤ b1 && b1 ≤ 239 then
      (match rest with
       | b2 :: b3 :: rest2 =>
         let lo2 := if b1 == 224 then 160 else 128
         let hi2 := if b1 == 237 then 159 else 191
         if (lo2 ≤ b2 && b2 ≤ hi2) && (128 ≤ b3 && b3 ≤ 191) then
           (utf8Decode rest2).map
             (fun t => Char.ofNat
               (((b1 - 224) * 64 + (b2 - 128)) * 64 + (b3 - 128)) :: t)
         else none
       | _ => none)
    else if 240 ≤ b1 && b1 ≤ 244 then
      (match rest with
       | b2 :: b3 :: b4 :: rest2 =>
         let lo2 := if b1 == 240 then 144 else 128
         let hi2 := if b1 == 244 then 143 else 191
         if (lo2 ≤ b2 && b2 ≤ hi2) && (128 ≤ b3 && b3 ≤ 191)
             && (128 ≤ b4 && b4 ≤ 191) then
           (utf8Decode rest2).map
             (fun t => Char.ofNat
               ((((b1 - 240) * 64 + (b2 - 128)) * 64 + (b3 - 128)) * 64
                 + (b4 - 128)) :: t)
         else none
       | _ => none)
    else none

/-- JSON values; numbers are kept as their lexeme, which suffices for
validation (no numeric field is accepted by `WebhookMessage`). -/
inductive Json where
  | null : Json
  | bool : Bool → Json
  | num : List Char → Json
  | str : List Char → Json
  | arr : List Json → Json
  | obj : List (List Char × Json) → Json

/-- JSON insignificant whitespace. -/
def skipWs : List Char → List Char
  | [] => []
  | c :: cs =>
    if c == ' ' || c == '\t' || c == '\n' || c == '\r' then skipWs cs
    else c :: cs

/-- Hexadecimal digit value for `\u` escapes. -/
def hexVal (c : Char) : Option Nat :=
  if 48 ≤ c.toNat && c.toNat ≤ 57 then some (c.toNat - 48)
  else if 97 ≤ c.toNat && c.toNat ≤ 102 then some (c.toNat - 87)
  else if 65 ≤ c.toNat && c.toNat ≤ 70 then some (c.toNat - 55)
  else none

/-- Four hexadecimal digits of a `\uXXXX` escape. -/
def parseHex4 : List Char → Option (Nat × List Char)
  | a :: b :: c :: d :: rest =>
    (match hexVal a, hexVal b, hexVal c, hexVal d with
     | some x, some y, some z, some w =>
       some (((x * 16 + y) * 16 + z) * 16 + w, rest)
     | _, _, _, _ => none)
  | _ => none

/-- JSON string contents after the opening quote: returns the decoded
characters and the remainder after the closing quote.  Control characters
must be escaped; `\uXXXX` escapes combine surrogate pairs and reject lone
surrogates. -/
def jstring : Nat → List Char → Option (List Char × List Char)
  | 0, _ => none
  | f + 1, cs =>
    match cs with
    | [] => none
    | '"' :: rest => some ([], rest)
    | '\\' :: e :: rest =>
      (match e with
       | '"' => (jstring f rest).map (fun p => ('"' :: p.1, p.2))
       | '\\' => (jstring f rest).map (fun p => ('\\' :: p.1, p.2))
       | '/' => (jstring f rest).map (fun p => ('/' :: p.1, p.2))
       | 'b' => (jstring f rest).map (fun p => (Char.ofNat 8 :: p.1, p.2))
       | 'f' => (jstring f rest).map (fun p => (Char.ofNat 12 :: p.1, p.2))
       | 'n' => (jstring f rest).map (fun p => ('\n' :: p.1, p.2))
       | 'r' => (jstring f rest).map (fun p => (Char.ofNat 13 :: p.1, p.2))
       | 't' => (jstring f rest).map (fun p => ('\t' :: p.1, p.2))
       | 'u' =>
         (match parseHex4 rest with
          | none => none
          | some (n, rest2) =>
            if 55296 ≤ n && n ≤ 56319 then
              (match rest2 with
               | '\\' :: 'u' :: rest3 =>
                 (match parseHex4 rest3 with
                  | none => none
                  | some (lo, rest4) =>
                    if 56320 ≤ lo && lo ≤ 57343 then
                      (jstring f rest4).map (fun p =>
                        (Char.ofNat
                          (65536 + (n - 55296) * 1024 + (lo - 56320))
                          :: p.1, p.2))
                    else none)
               | _ => none)
            else if 56320 ≤ n && n ≤ 57343 then none
            else (jstring f rest2).map (fun p => (Char.ofNat n :: p.1, p.2)))
       | _ => none)
    | c :: rest =>
      if c.toNat < 32 then none
      else (jstring f rest).map (fun p => (c :: p.1, p.2))

/-- Greedy run of ASCII digits. -/
def digitsMany : List Char → List Char × List Char
  | [] => ([], [])
  | c :: rest =>
    if c.isDigit then
      let p := digitsMany rest
      (c :: p.1, p.2)
    else ([], c :: rest)

/-- One or more ASCII digits. -/
def digits1 (cs : List Char) : Option (List Char × List Char) :=
  match cs with
  | c :: _ =>
    if c.isDigit then some (digitsMany cs) else none
  | _ => none

/-- A JSON number lexeme: `-?(0|[1-9][0-9]*)(\.[0-9]+)?([eE][+-]?[0-9]+)?`. -/
def jnumber (cs : List Char) : Option (List Char × List Char) :=
  let (sgn, cs1) :=
    match cs with
    | '-' :: r => (['-'], r)
    | r => (([] : List Char), r)
  let intPart : Option (List Char × List Char) :=
    match cs1 with
    | '0' :: r => some (['0'], r)
    | c :: _ => if c.isDigit then some (digitsMany cs1) else none
    | _ => none
  match intPart with
  | none => none
  | some (ip, cs2) =>
    let fracPart : Option (List Char × List Char) :=
      match cs2 with
      | '.' :: r =>
        (match digits1 r with
         | some (ds, r2) => some ('.' :: ds, r2)
         | none => none)
      | r => some ([], r)
    match fracPart with
    | none => none
    | some (fp, cs3) =>
      let expPart : Option (List Char × List Char) :=
        match cs3 with
        | 'e' :: '+' :: r =>
          (match digits1 r with
           | some (ds, r2) => some ('e' :: '+' :: ds, r2)
           | none => none)
        | 'e' :: '-' :: r =>
          (match digits1 r with
           | some (ds, r2) => some ('e' :: '-' :: ds, r2)
           | none => none)
        | 'e' :: r =>
          (match digits1 r with
           | some (ds, r2) => some ('e' :: ds, r2)
           | none => none)
        | 'E' :: '+' :: r =>
          (match digits1 r with
           | some (ds, r2) => some ('E' :: '+' :: ds, r2)
           | none => none)
        | 'E' :: '-' :: r =>
          (match digits1 r with
           | some (ds, r2) => some ('E' :: '-' :: ds, r2)
           | none => none)
        | 'E' :: r =>
          (match digits1 r with
           | some (ds, r2) => some ('E' :: ds, r2)
           | none => none)
        | r => some ([], r)
      match expPart with
      | none => none
      | some (ep, cs4) => some (sgn ++ ip ++ fp ++ ep, cs4)

mutual

/-- A JSON value (fuel-indexed recursive-descent parser). -/
def jvalue : Nat → List Char → Option (Json × List Char)
  | 0, _ => none
  | f + 1, cs =>
    match skipWs cs with
    | '{' :: rest =>
      (match skipWs rest with
       | '}' :: r3 => some (Json.obj [], r3)
       | r2 => jmembers f r2 [])
    | '[' :: rest =>
      (match skipWs rest with
       | ']' :: r3 => some (Json.arr [], r3)
       | r2 => jelems f r2 [])
    | '"' :: rest =>
      (jstring (rest.length + 1) rest).map (fun p => (Json.str p.1, p.2))
    | 't' :: 'r' :: 'u' :: 'e' :: rest => some (Json.bool true, rest)
    | 'f' :: 'a' :: 'l' :: 's' :: 'e' :: rest => some (Json.bool false, rest)
    | 'n' :: 'u' :: 'l' :: 'l' :: rest => some (Json.null, rest)
    | other => (jnumber other).map (fun p => (Json.num p.1, p.2))

/-- The elements of a JSON array after the opening bracket (at least one
element present). -/
def jelems : Nat → List Char → List Json → Option (Json × List Char)
  | 0, _, _ => none
  | f + 1, cs, acc =>
    (match jvalue f cs with
     | none => none
     | some (v, rest) =>
       match skipWs rest with
       | ',' :: r3 => jelems f r3 (acc ++ [v])
       | ']' :: r3 => some (Json.arr (acc ++ [v]), r3)
       | _ => none)

/-- The members of a JSON object after the opening brace (at least one
member present). -/
def jmembers : Nat → List Char → List (List Char × Json) →
    Option (Json × List Char)
  | 0, _, _ => none
  | f + 1, cs, acc =>
    (match skipWs cs with
     | '"' :: r =>
       (match jstring (r.length + 1) r with
        | none => none
        | some (key, r2) =>
          match skipWs r2 with
          | ':' :: r4 =>
            (match jvalue f r4 with
             | none => none
             | some (v, r5) =>
               match skipWs r5 with
               | ',' :: r7 => jmembers f r7 (acc ++ [(key, v)])
               | '}' :: r7 => some (Json.obj (acc ++ [(key, v)]), r7)
               | _ => none)
          | _ => none)
     | _ => none)

end

/-- Field lookup in a parsed JSON object; a duplicated key keeps the last
value, as Python dicts (and pydantic's jiter) do. -/
def jlookup (fields : List (List Char × Json)) (key : List Char) :
    Option Json :=
  fields.foldl (fun acc p => if p.1 == key then some p.2 else acc) none

/-- A successfully validated `WebhookMessage` (`app/models.py`). -/
structure Msg where
  message_id : String
  from_ : String
  to_ : String
  ts : String
  text : Option String
deriving DecidableEq, Repr

/-- `WebhookMessage.model_validate_json(body)`: UTF-8 decode, strict JSON
parse of the whole body, then field validation — `message_id` a string of
length ≥ 1; `from` (alias) and `to` strings matching the E.164 regex
(`to` additionally has `min_length=1`); `ts` a string passing the
ISO-8601 validator; `text` absent or null (→ `None`) or a string of at
most 4096 characters; extra fields ignored; `none` is a
`ValidationError`. -/
def model_validate_json (body : List Nat) : Option Msg :=
  match utf8Decode body with
  | none => none
  | some chars =>
    match jvalue (2 * chars.length + 4) chars with
    | none => none
    | some (v, rest) =>
      if (skipWs rest).isEmpty then
        match v with
        | Json.obj fields =>
          (match jlookup fields ("message_id" : String).data,
              jlookup fields ("from" : String).data,
              jlookup fields ("to" : String).data,
              jlookup fields ("ts" : String).data with
           | some (Json.str mid), some (Json.str f), some (Json.str t),
               some (Json.str ts) =>
             (match
                (match jlookup fields ("text" : String).data with
                 | none => some (none : Option String)
                 | some Json.null => some none
                 | some (Json.str s) =>
                   if s.length ≤ 4096 then some (some (String.mk s)) else none
                 | some _ => none) with
              | none => none
              | some txt =>
                if 1 ≤ mid.length && e164Match f
                    && (1 ≤ t.length && e164Match t)
                    && validate_iso8601 (String.mk ts) then
                  some ⟨String.mk mid, String.mk f, String.mk t,
                    String.mk ts, txt⟩
                else none)
           | _, _, _, _ => none)
        | _ => none
      else none

/-! ## The webhook endpoint (`app/main.py`) -/

/-- The HTTP responses the `/webhook` handler can produce: 200 with body
`{"status": "ok"}`, 401 `invalid signature`, 422 with validation detail,
or 500 when an exception (e.g. the `TypeError` from `compare_digest` on a
non-ASCII header) escapes the handler. -/
inductive WebhookResponse where
  | ok200 : WebhookResponse
  | unauthorized401 : WebhookResponse
  | unprocessable422 : WebhookResponse
  | serverError500 : WebhookResponse
deriving DecidableEq, Repr

/-- The `POST /webhook` handler: reads the raw body, verifies the
signature from the `X-Signature` header (missing header → `''`), parses
and validates the payload, and inserts it; a duplicate insert still
answers 200.  Returns the response and the new store. -/
def webhook (secret : List Nat) (db : List Row) (now : String)
    (body : List Nat) (sigHeader : Option String) :
    WebhookResponse × List Row :=
  match verify_signature secret body (sigHeader.getD "") with
  | Except.error _ => (WebhookResponse.serverError500, db)
  | Except.ok false => (WebhookResponse.unauthorized401, db)
  | Except.ok true =>
    (match model_validate_json body with
     | none => (WebhookResponse.unprocessable422, db)
     | some m =>
       let res := insert_message db now m.message_id m.from_ m.to_ m.ts m.text
       (WebhookResponse.ok200, res.1))

/-! ## Claim C9: failed signature short-circuits -/

/-- C9: whenever signature verification returns `False`, the webhook
answers 401 and the store is returned exactly unchanged — neither payload
validation nor persistence is reached (for ANY store contents `db`, the
same 401 response and the untouched `db` come back). -/
theorem c9_auth_failure (secret : List Nat) (db : List Row) (now : String)
    (body : List Nat) (sigHeader : Option String)
    (h : verify_signature secret body (sigHeader.getD "") = Except.ok false) :
    webhook secret db now body sigHeader
      = (WebhookResponse.unauthorized401, db) := by
  unfold webhook
  rw [h]

/-- Concrete test data shared by the pipeline witnesses: the secret of
the repository's test suite, and two signed JSON bodies carrying the same
`message_id` with different field values. -/
def secret0 : List Nat := strBytes "testsecret"

/-- A valid webhook body (all five fields). -/
def body1 : List Nat := strBytes "\x7b\"message_id\":\"m1\",\"from\":\"+911234567890\",\"to\":\"+14155550100\",\"ts\":\"2025-01-15T10:00:00Z\",\"text\":\"Hello\"\x7d"

/-- A second valid body with the same `message_id` as `body1` but
different `from`, `ts` and no `text`. -/
def body2 : List Nat := strBytes "\x7b\"message_id\":\"m1\",\"from\":\"+15550001111\",\"to\":\"+14155550100\",\"ts\":\"2025-02-20T08:30:00Z\"\x7d"

/-- The hex HMAC-SHA256 of `body1` under `secret0`. -/
def sig1 : String :=
  "6063c8e28f84963fa04806e13294fc5d0e2cd798572b6ec3655b0308a294b3a2"

/-- The hex HMAC-SHA256 of `body2` under `secret0`. -/
def sig2 : String :=
  "2776b6c343c28fb369453d6c6fe8fc5c68ad137f4d8895599e451c3765fa9691"

set_option maxRecDepth 40000 in
/-- Witness for C9 at a concrete store and an invalid signature. -/
theorem c9_witness :
    verify_signature secret0 body1 ((some "deadbeef").getD "")
        = Except.ok false
    ∧ webhook secret0 [rowA] "T2" body1 (some "deadbeef")
        = (WebhookResponse.unauthorized401, [rowA]) :=
  ⟨by decide,
    c9_auth_failure secret0 [rowA] "T2" body1 (some "deadbeef") (by decide)⟩

/-! ## Claim C1: idempotent insertion keyed on `message_id` -/

/-- C1: if a first valid signed request inserts a message with a fresh
`message_id`, then a second valid signed request whose payload carries the
SAME `message_id` — regardless of its other field values — also answers
200 `{"status": "ok"}`, leaves the store exactly unchanged, and the store
contains exactly one row for that `message_id`, whose fields (including
`created_at`) are those written by the first insert. -/
theorem c1_idempotent_duplicate (secret : List Nat) (db db1 : List Row)
    (now1 now2 : String) (body1 body2 : List Nat) (s1 s2 : String)
    (m1 m2 : Msg)
    (hv1 : verify_signature secret body1 s1 = Except.ok true)
    (hp1 : model_validate_json body1 = some m1)
    (hv2 : verify_signature secret body2 s2 = Except.ok true)
    (hp2 : model_validate_json body2 = some m2)
    (hid : m2.message_id = m1.message_id)
    (hfresh : db.any (fun r => r.message_id == m1.message_id) = false)
    (hdb1 : db1 = (webhook secret db now1 body1 (some s1)).2) :
    (webhook secret db now1 body1 (some s1)).1 = WebhookResponse.ok200
    ∧ webhook secret db1 now2 body2 (some s2) = (WebhookResponse.ok200, db1)
    ∧ db1.filter (fun r => r.message_id == m1.message_id)
        = [⟨m1.message_id, m1.from_, m1.to_, m1.ts, m1.text, now1⟩] := by
  have e1 : webhook secret db now1 body1 (some s1)
      = (WebhookResponse.ok200,
          db ++ [⟨m1.message_id, m1.from_, m1.to_, m1.ts, m1.text, now1⟩]) := by
    simp [webhook, Option.getD, hv1, hp1, insert_message, hfresh]
  have hdb1' : db1
      = db ++ [⟨m1.message_id, m1.from_, m1.to_, m1.ts, m1.text, now1⟩] := by
    rw [hdb1, e1]
  have hdup : db1.any (fun r => r.message_id == m2.message_id) = true := by
    rw [hdb1', hid]
    simp
  have hnil : db.filter (fun r => r.message_id == m1.message_id) = [] := by
    rw [List.filter_eq_nil_iff]
    intro a ha
    rw [List.any_eq_false] at hfresh
    exact hfresh a ha
  refine ⟨by rw [e1], ?_, ?_⟩
  · simp [webhook, Option.getD, hv2, hp2, insert_message, hdup]
  · rw [hdb1', List.filter_append, hnil]
    simp

set_option maxRecDepth 40000 in
/-- Witness for C1: posting `body1` into an empty store and then `body2`
(same `message_id`, different `from`/`ts`/`text`) gives two 200 responses
and exactly the one row written by the first insert. -/
theorem c1_witness :
    (webhook secret0 [] "T1" body1 (some sig1)).1 = WebhookResponse.ok200
    ∧ webhook secret0 ((webhook secret0 [] "T1" body1 (some sig1)).2) "T2"
        body2 (some sig2)
        = (WebhookResponse.ok200, (webhook secret0 [] "T1" body1 (some sig1)).2)
    ∧ ((webhook secret0 [] "T1" body1 (some sig1)).2).filter
        (fun r => r.message_id == "m1")
        = [⟨"m1", "+911234567890", "+14155550100", "2025-01-15T10:00:00Z",
            some "Hello", "T1"⟩] := by
  have h := c1_idempotent_duplicate secret0 []
    ((webhook secret0 [] "T1" body1 (some sig1)).2) "T1" "T2" body1 body2
    sig1 sig2
    ⟨"m1", "+911234567890", "+14155550100", "2025-01-15T10:00:00Z",
      some "Hello"⟩
    ⟨"m1", "+15550001111", "+14155550100", "2025-02-20T08:30:00Z", none⟩
    (by decide) (by decide) (by decide) (by decide) (by decide) (by decide)
    rfl
  exact h

end Lyftr
